import Mathlib

/-!
# Piano tiles (`main.c`): the game-state engine

A shallow embedding of the game logic of `main.c`: the tile array, the button
classifier (`update_button`, `update_buttons`), the game-over routine (`end_game`),
one iteration of the loop of `TaskButtonPress` and one iteration of the loop of
`TaskTileFall`.

Modelling conventions.

* C `int` values are mathematical integers (`Int`); signed overflow is undefined in C
  and lies outside the model.
* `tile_list` is a total array of `NGGYU_LENGTH = 50` tiles, `button_states` a total
  array of `NUM_BUTTONS = 4` states.  An access through a C `int` index returns `none`
  when the index is outside the array, and an operation that performs such an access
  has no result (`none`).
* `random(0,4)` is not defined in `main.c`; it is an input of the operations that call
  it.  `TaskButtonPress` calls it at most once per iteration (argument `r`), the loops of
  `initialize_tiles` and `TaskTileFall` receive a stream `rnd`, whose `k`-th element
  answers the `k`-th call made by that run of the loop.
* `digitalRead(BUTTONS[i])` is the input `digitalRead i`.
* `NGGYU_LENGTH` is 50 and `NUM_BUTTONS` is 4; they appear as the sizes of the two arrays.
* `portTICK_PERIOD_MS` is a FreeRTOS macro that `main.c` does not define; it is a
  parameter of `fall_delay`.
* `update_num` is modelled on `DIGIT_ARRAY` alone and `TaskSpeaker` on its read of `NGGYU`;
  the writes to the display ports are left out.
* The arrays `ROW` and `COL` have 8 entries each, bit masks built from macros of the AVR
  headers; they are parameters of the model of `TaskTileDisplay`, and the two matrix ports
  are 8 bits wide.
* One iteration of the loop of a task is one atomic step (`Step`).  `TaskButtonPress` has a
  scheduling point, `vTaskDelay(1)`, between `update_buttons` and the reads of `tile_list`;
  an iteration of `TaskTileFall` that runs there neither reads nor writes `button_states`,
  so it has the same effect as one that runs just before the iteration of `TaskButtonPress`
  (`sample_buttons_fall_comm`).  Preemption inside a loop body is outside the model.
* The FreeRTOS task state touched by `end_game` is kept as two flags
  (`tileDisplaySuspended`, `speakerSuspended`); no code resumes a task.
-/

namespace PianoTiles

/-- States that a button can be in (`enum bp_state`). -/
inductive bp_state
  | NOT_PRESSED
  | INIT_PRESSED
  | CONT_PRESSED
  deriving DecidableEq

/-- A tile (`struct tile`). -/
structure tile where
  lane : Int
  row : Int
  is_pressed : Bool
  deriving DecidableEq

/-- The global variables of `main.c` that the game logic reads or writes. -/
structure State where
  tile_list : Fin 50 → tile
  bottom_tile : Int
  button_states : Fin 4 → bp_state
  score : Int
  note_index : Int
  fall_period : Int
  tileDisplaySuspended : Bool
  speakerSuspended : Bool
  OCR4A : Int
  ROW_PORT : Int
  COL_PORT : Int

/-- The read `tile_list[i]` for a C `int` index. -/
def tile_at (tl : Fin 50 → tile) (i : Int) : Option tile :=
  if h : 0 ≤ i ∧ i < 50 then some (tl ⟨i.toNat, by omega⟩) else none

/-- A write to fields of `tile_list[i]` for a C `int` index. -/
def set_tile (tl : Fin 50 → tile) (i : Int) (f : tile → tile) : Option (Fin 50 → tile) :=
  if h : 0 ≤ i ∧ i < 50 then
    some (Function.update tl ⟨i.toNat, by omega⟩ (f (tl ⟨i.toNat, by omega⟩)))
  else none

/-- The read `button_states[i]` for a C `int` index. -/
def button_at (bs : Fin 4 → bp_state) (i : Int) : Option bp_state :=
  if h : 0 ≤ i ∧ i < 4 then some (bs ⟨i.toNat, by omega⟩) else none

/-! ## `initialize_tiles` -/

/-- Iterations `i = 0 .. n-1` of the loop of `initialize_tiles`. -/
def initialize_loop (rnd : Nat → Int) : Nat → (Fin 50 → tile) → (Fin 50 → tile)
  | 0, tl => tl
  | n + 1, tl =>
    let tl1 := initialize_loop rnd n tl
    if h : n < 50 then
      Function.update tl1 ⟨n, h⟩ { lane := rnd n, row := 2 * (n : Int) + 7, is_pressed := false }
    else tl1

/-- The function `initialize_tiles`: the loop runs for `i = 0 .. NGGYU_LENGTH - 1`. -/
def initialize_tiles (rnd : Nat → Int) (tl : Fin 50 → tile) : Fin 50 → tile :=
  initialize_loop rnd 50 tl

/-- The globals after their initialisers and the call of `initialize_tiles` in `setup`. -/
def initial_state (rnd : Nat → Int) : State where
  tile_list := initialize_tiles rnd (fun _ => { lane := 0, row := 0, is_pressed := false })
  bottom_tile := 0
  button_states := fun _ => bp_state.NOT_PRESSED
  score := 0
  note_index := 0
  fall_period := 200
  tileDisplaySuspended := false
  speakerSuspended := false
  OCR4A := 0
  ROW_PORT := 0
  COL_PORT := 0

/-! ## `end_game` -/

/-- The function `clear_board`. -/
def clear_board (s : State) : State :=
  { s with ROW_PORT := 0b11111111, COL_PORT := 0 }

/-- The function `end_game`. -/
def end_game (s : State) : State :=
  let s1 := { s with tileDisplaySuspended := true }
  let s2 := { s1 with OCR4A := 0 }
  let s3 := { s2 with speakerSuspended := true }
  clear_board s3

/-- The game is over once `end_game` has suspended the display and the speaker. -/
def game_over (s : State) : Prop :=
  s.tileDisplaySuspended = true ∧ s.speakerSuspended = true

instance (s : State) : Decidable (game_over s) := by
  unfold game_over; infer_instance

/-! ## The button classifier -/

/-- The function `update_button`.  Its only caller, `update_buttons`, passes the indexes
`0 .. NUM_BUTTONS - 1`, so the index is taken in `Fin 4`. -/
def update_button (digitalRead : Fin 4 → Bool) (index : Fin 4)
    (button_states : Fin 4 → bp_state) : Fin 4 → bp_state :=
  if digitalRead index then
    if button_states index = bp_state.INIT_PRESSED ∨
        button_states index = bp_state.CONT_PRESSED then
      Function.update button_states index bp_state.CONT_PRESSED
    else
      Function.update button_states index bp_state.INIT_PRESSED
  else
    Function.update button_states index bp_state.NOT_PRESSED

/-- The function `update_buttons`: `update_button(i)` for `i = 0 .. 3`. -/
def update_buttons (digitalRead : Fin 4 → Bool) (button_states : Fin 4 → bp_state) :
    Fin 4 → bp_state :=
  ([0, 1, 2, 3] : List (Fin 4)).foldl (fun bs i => update_button digitalRead i bs) button_states

/-! ## `TaskButtonPress` -/

/-- One iteration of the loop that determines `pressed_button`. -/
def pressed_button_step (button_states : Fin 4 → bp_state) (pressed_button : Int)
    (i : Fin 4) : Int :=
  if button_states i = bp_state.INIT_PRESSED ∨ button_states i = bp_state.CONT_PRESSED then
    ((i : Nat) : Int)
  else pressed_button

/-- The value of `pressed_button` after the loop over `i = 0 .. 3`, starting from `-1`. -/
def pressed_button (button_states : Fin 4 → bp_state) : Int :=
  ([0, 1, 2, 3] : List (Fin 4)).foldl (pressed_button_step button_states) (-1)

/-- The three ways the `if` / `else if` of `TaskButtonPress` can go. -/
inductive Branch
  | game_over
  | hit
  | idle
  deriving DecidableEq

/-- The branch taken by the `if` / `else if` of `TaskButtonPress`, with the C evaluation
order and short-circuiting of `&&`. -/
def resolve_branch (s : State) : Option Branch :=
  let pb := pressed_button s.button_states
  match tile_at s.tile_list s.bottom_tile with
  | none => none
  | some t =>
    let hit_bottom_no_press : Bool := decide (t.row < 0) && decide (pb = -1)
    let hit_bottom_wrong : Bool := decide (t.row < 0) && decide (pb ≠ t.lane)
    let hit_wrong_tile : Option Bool :=
      if pb ≠ -1 ∧ pb ≠ t.lane then
        (button_at s.button_states pb).map (fun b => decide (b = bp_state.INIT_PRESSED))
      else some false
    match hit_wrong_tile with
    | none => none
    | some hwt =>
      if (hit_bottom_wrong || hwt || hit_bottom_no_press) = true then some Branch.game_over
      else if pb = t.lane then
        match button_at s.button_states pb with
        | none => none
        | some b => if b = bp_state.INIT_PRESSED then some Branch.hit else some Branch.idle
      else some Branch.idle

/-- The body of the `else if` of `TaskButtonPress` (the correct button was hit);
`r` is the value returned by `random(0,4)`. -/
def hit_effects (r : Int) (s : State) : Option State :=
  match set_tile s.tile_list s.bottom_tile (fun t => { t with is_pressed := true }) with
  | none => none
  | some tl1 =>
    let s1 := { s with tile_list := tl1, note_index := s.note_index + 1, score := s.score + 1 }
    match set_tile s1.tile_list s1.bottom_tile (fun t => { t with lane := r }) with
    | none => none
    | some tl2 =>
      match set_tile tl2 s1.bottom_tile (fun t => { t with row := 2 * (50 - 1) + 7 }) with
      | none => none
      | some tl3 =>
        match set_tile tl3 s1.bottom_tile (fun t => { t with is_pressed := false }) with
        | none => none
        | some tl4 => some { s1 with tile_list := tl4, bottom_tile := s1.bottom_tile + 1 }

/-- The part of one iteration of `TaskButtonPress` that follows `update_buttons`. -/
def TaskButtonPress_resolve (r : Int) (s : State) : Option State :=
  match resolve_branch s with
  | none => none
  | some Branch.game_over => some (end_game s)
  | some Branch.hit => hit_effects r s
  | some Branch.idle => some s

/-- The call `update_buttons()` on the globals. -/
def sample_buttons (digitalRead : Fin 4 → Bool) (s : State) : State :=
  { s with button_states := update_buttons digitalRead s.button_states }

/-- One iteration of the loop of `TaskButtonPress`. -/
def TaskButtonPress_cycle (digitalRead : Fin 4 → Bool) (r : Int) (s : State) : Option State :=
  TaskButtonPress_resolve r (sample_buttons digitalRead s)

/-! ## `TaskTileFall` -/

/-- The body of the loop over the tiles in `TaskTileFall`, for index `i`; the second
component counts the calls of `random` made so far. -/
def fall_body (bottom_tile : Int) (rnd : Nat → Int) (acc : (Fin 50 → tile) × Nat)
    (i : Fin 50) : (Fin 50 → tile) × Nat :=
  let t1 : tile := { acc.1 i with row := (acc.1 i).row - 1 }
  if t1.row < 0 ∧ ((i : Nat) : Int) ≠ bottom_tile then
    (Function.update acc.1 i { lane := rnd acc.2, row := 2 * 49 + 7, is_pressed := false },
      acc.2 + 1)
  else
    (Function.update acc.1 i t1, acc.2)

/-- Iterations `i = 0 .. n-1` of the loop over the tiles in `TaskTileFall`. -/
def fall_loop (bottom_tile : Int) (rnd : Nat → Int) :
    Nat → (Fin 50 → tile) × Nat → (Fin 50 → tile) × Nat
  | 0, acc => acc
  | n + 1, acc =>
    let acc1 := fall_loop bottom_tile rnd n acc
    if h : n < 50 then fall_body bottom_tile rnd acc1 ⟨n, h⟩ else acc1

/-- One iteration of the loop of `TaskTileFall`. -/
def TaskTileFall_tick (rnd : Nat → Int) (s : State) : State :=
  let bottom_tile := if s.bottom_tile ≥ 50 then 0 else s.bottom_tile
  let note_index := if s.note_index ≥ 50 then 0 else s.note_index
  { s with
    bottom_tile := bottom_tile
    note_index := note_index
    tile_list := (fall_loop bottom_tile rnd 50 (s.tile_list, 0)).1
    fall_period := s.fall_period - 1 }

/-! ## Executions -/

/-- A step of the game: one iteration of `TaskTileFall` or one of `TaskButtonPress`. -/
inductive Step
  | fall (rnd : Nat → Int)
  | press (digitalRead : Fin 4 → Bool) (r : Int)

/-- The effect of one step. -/
def step (s : State) : Step → Option State
  | Step.fall rnd => some (TaskTileFall_tick rnd s)
  | Step.press digitalRead r => TaskButtonPress_cycle digitalRead r s

/-- The effect of a sequence of steps, first step first. -/
def run : List Step → State → Option State
  | [], s => some s
  | st :: rest, s =>
    match step s st with
    | none => none
    | some s1 => run rest s1

/-- States reachable from initialisation by iterations of the two tasks. -/
inductive Reachable : State → Prop
  | init (rnd : Nat → Int) : Reachable (initial_state rnd)
  | fall (rnd : Nat → Int) {s : State} : Reachable s → Reachable (TaskTileFall_tick rnd s)
  | press (digitalRead : Fin 4 → Bool) (r : Int) {s s1 : State} :
      Reachable s → TaskButtonPress_cycle digitalRead r s = some s1 → Reachable s1

/-! ## Concrete states used below -/

/-- The initial state with every tile in lane 2, after `update_buttons` has read buttons 0
and 2 as pressed: both are `INIT_PRESSED`. -/
def two_edges_state : State :=
  sample_buttons ![true, false, true, false] (initial_state (fun _ => 2))

/-- The initial state with every tile in lane 2, after `update_buttons` has read button 0
alone as pressed. -/
def wrong_edge_state : State :=
  sample_buttons ![true, false, false, false] (initial_state (fun _ => 2))

/-- A state whose active tile (index 0, lane 1) has fallen to row `-1`, no button pressed. -/
def missed_state : State :=
  { initial_state (fun _ => 1) with
    tile_list := fun _ => { lane := 1, row := -1, is_pressed := false } }

/-- A state whose active tile (index 0, lane 1) is on row `0`, no button pressed. -/
def row_zero_state : State :=
  { initial_state (fun _ => 1) with
    tile_list := fun i => { lane := 1, row := 2 * ((i : Nat) : Int), is_pressed := false } }

/-- The initial state with every tile in lane 2, after `update_buttons` has read button 2
alone as pressed. -/
def first_hit_state : State :=
  sample_buttons ![false, false, true, false] (initial_state (fun _ => 2))

/-- A state whose active tile is the last one of the array (index 49, lane 2, row 105), with
button 2 alone in the press-edge state. -/
def last_tile_state : State :=
  { first_hit_state with bottom_tile := 49 }

/-- The spec scenario of section 8: tile 0 in lane 2, every other tile in lane 0. -/
def scenario_lanes : Nat → Int := fun k => if k = 0 then 2 else 0

/-- The spec scenario of section 8: press button 2 (a hit), release, press button 3 while
the active tile is in lane 0 (game over). -/
def scenario_steps : List Step :=
  [Step.press ![false, false, true, false] 0,
   Step.press ![false, false, false, false] 0,
   Step.press ![false, false, false, true] 0]

/-- After the game over of `scenario_steps`: release, then press button 0. -/
def after_game_over_steps : List Step :=
  [Step.press ![false, false, false, false] 0,
   Step.press ![true, false, false, false] 0]

/-- Button 2 alone read as pressed. -/
def hold_lane_two : Fin 4 → Bool := ![false, false, true, false]

/-- The state reached by `scenario_steps` followed by `after_game_over_steps`. -/
def scenario_final : State :=
  (run (scenario_steps ++ after_game_over_steps) (initial_state scenario_lanes)).getD
    (initial_state scenario_lanes)

/-- The initial state with every tile in lane 2, after `update_buttons` has read button 2
as pressed a second time: it is `CONT_PRESSED`. -/
def held_state : State :=
  sample_buttons ![false, false, true, false] first_hit_state

/-! ## A full song played without a mistake -/

/-- Button 0 alone read as pressed. -/
def press_lane_zero : Fin 4 → Bool := ![true, false, false, false]

/-- No button read as pressed. -/
def no_press : Fin 4 → Bool := ![false, false, false, false]

/-- One round of play on a board whose tiles are all in lane 0: press button 0, release it,
then the tiles fall by one row. -/
def song_round : List Step :=
  [Step.press press_lane_zero 0, Step.press no_press 0, Step.fall (fun _ => 0)]

/-- The first `n` rounds of play. -/
def song_rounds : Nat → List Step
  | 0 => []
  | n + 1 => song_rounds n ++ song_round

/-- The whole song: 49 rounds, then button 0 pressed for the fiftieth tile. -/
def full_song_steps : List Step :=
  song_rounds 49 ++ [Step.press press_lane_zero 0]

/-- The state of the board after `k` rounds of play: tile `k` is the active tile, every tile
is in lane 0, no button is pressed, the tiles from `k` on have fallen `k` rows from their
initial row `2*j + 7`, and `end_game` has not been called. -/
def song_inv (k : Nat) (s : State) : Prop :=
  s.bottom_tile = (k : Int) ∧
    (∀ j, (s.tile_list j).lane = 0) ∧
    (∀ i, s.button_states i = bp_state.NOT_PRESSED) ∧
    (∀ j : Fin 50, k ≤ (j : Nat) → (s.tile_list j).row = 2 * ((j : Nat) : Int) + 7 - (k : Int)) ∧
    s.tileDisplaySuspended = false ∧ s.speakerSuspended = false

/-! ## The order of the tiles -/

/-- The first `n` iterations of `TaskTileFall`, with no iteration of `TaskButtonPress` in
between. -/
def fall_steps : Nat → List Step
  | 0 => []
  | n + 1 => fall_steps n ++ [Step.fall (fun _ => 0)]

/-- Ten iterations of `TaskTileFall`, then button 0 pressed. -/
def late_hit_steps : List Step :=
  fall_steps 10 ++ [Step.press press_lane_zero 0]

/-- Press button 0 and release it, with no iteration of `TaskTileFall`. -/
def quick_round : List Step :=
  [Step.press press_lane_zero 0, Step.press no_press 0]

/-- The first `n` quick rounds. -/
def quick_rounds : Nat → List Step
  | 0 => []
  | n + 1 => quick_rounds n ++ quick_round

/-- The place of tile `j` in the queue that starts at the active index `bottom_tile` and
wraps at the end of the array. -/
def queue_position (bottom_tile : Int) (j : Fin 50) : Int :=
  (((j : Nat) : Int) - bottom_tile) % 50

/-- States reachable from initialisation by iterations of the two tasks in which every hit
is made while the active tile is still on the board (row at least 0). -/
inductive ReachableOnTime : State → Prop
  | init (rnd : Nat → Int) : ReachableOnTime (initial_state rnd)
  | fall (rnd : Nat → Int) {s : State} :
      ReachableOnTime s → ReachableOnTime (TaskTileFall_tick rnd s)
  | press (digitalRead : Fin 4 → Bool) (r : Int) {s s1 : State} :
      ReachableOnTime s → TaskButtonPress_cycle digitalRead r s = some s1 →
      (resolve_branch (sample_buttons digitalRead s) = some Branch.hit →
        ∀ t, tile_at s.tile_list s.bottom_tile = some t → 0 ≤ t.row) →
      ReachableOnTime s1

/-- The invariant behind the order of the tiles: `bottom_tile` is between 0 and 50, no row
is above 105, and either the rows do not decrease along the queue, or the active tile has
fallen below row 0 while every other tile is on a row at least 0. -/
def queue_inv (s : State) : Prop :=
  0 ≤ s.bottom_tile ∧ s.bottom_tile ≤ 50 ∧ (∀ j, (s.tile_list j).row ≤ 105) ∧
    ((∀ i j : Fin 50, queue_position s.bottom_tile i < queue_position s.bottom_tile j →
        (s.tile_list i).row ≤ (s.tile_list j).row) ∨
      (∃ b : Fin 50, s.bottom_tile = ((b : Nat) : Int) ∧ (s.tile_list b).row < 0 ∧
        ∀ j, j ≠ b → 0 ≤ (s.tile_list j).row))

/-- The state after one iteration of `TaskTileFall` and a hit on tile 0. -/
def one_hit_state : State :=
  (TaskButtonPress_cycle press_lane_zero 0
    (TaskTileFall_tick (fun _ => 0) (initial_state (fun _ => 0)))).getD
    (initial_state (fun _ => 0))

/-! ## The score display -/

/-- The function `update_num`, as far as `DIGIT_ARRAY` goes: the four assignments, in order,
each reading the digits already stored.  `/` and `%` of C truncate toward zero
(`Int.tdiv`, `Int.tmod`).  The loop that follows calls `display_num`, which writes the
display ports only. -/
def update_num (num : Int) (DIGIT_ARRAY : Fin 4 → Int) : Fin 4 → Int :=
  let d0 := Function.update DIGIT_ARRAY 0 (Int.tmod num 10)
  let d1 := Function.update d0 1 (Int.tdiv (Int.tmod num 100 - d0 0) 10)
  let d2 := Function.update d1 2 (Int.tdiv (Int.tmod num 1000 - 10 * d1 1 - d1 0) 100)
  Function.update d2 3
    (Int.tdiv (Int.tmod num 10000 - 100 * d2 2 - 10 * d2 1 - d2 0) 1000)

/-! ## The speaker -/

/-- The note `NOTE_5` (196 Hz). -/
def NOTE_5 : Int := 5100

/-- The note `NOTE_6` (220 Hz). -/
def NOTE_6 : Int := 4544

/-- The note `NOTE_7` (247 Hz). -/
def NOTE_7 : Int := 4056

/-- The note `NOTE_1` (261 Hz). -/
def NOTE_1 : Int := 3830

/-- The note `NOTE_2` (294 Hz). -/
def NOTE_2 : Int := 3400

/-- The note `NOTE_3` (329 Hz). -/
def NOTE_3 : Int := 3038

/-- The note `NOTE_5H` (392 Hz). -/
def NOTE_5H : Int := 2550

/-- The array `NGGYU`, the notes of the song. -/
def NGGYU : List Int :=
  [NOTE_5, NOTE_6, NOTE_1, NOTE_6, NOTE_3, NOTE_3, NOTE_2, NOTE_5, NOTE_6, NOTE_1,
   NOTE_6, NOTE_2, NOTE_2, NOTE_1, NOTE_5, NOTE_6, NOTE_1, NOTE_6, NOTE_1, NOTE_2,
   NOTE_7, NOTE_6, NOTE_5, NOTE_2, NOTE_1, NOTE_5, NOTE_6, NOTE_1, NOTE_6, NOTE_3,
   NOTE_3, NOTE_2, NOTE_5, NOTE_6, NOTE_1, NOTE_6, NOTE_5H, NOTE_7, NOTE_1, NOTE_5,
   NOTE_6, NOTE_1, NOTE_6, NOTE_1, NOTE_2, NOTE_7, NOTE_6, NOTE_5, NOTE_2, NOTE_1]

/-- The read `NGGYU[i]` for a C `int` index. -/
def NGGYU_at (i : Int) : Option Int :=
  if 0 ≤ i then NGGYU.get? i.toNat else none

/-- One iteration of the loop of `TaskSpeaker`: `OCR4A = NGGYU[note_index]`. -/
def TaskSpeaker_step (s : State) : Option State :=
  match NGGYU_at s.note_index with
  | none => none
  | some note => some { s with OCR4A := note }

/-! ## The fall period -/

/-- The argument of `vTaskDelay` in `TaskTileFall`, `fall_period / portTICK_PERIOD_MS`.
The macro `portTICK_PERIOD_MS` is not defined in `main.c`; it is a parameter, and the
division is the signed division of C. -/
def fall_delay (portTICK_PERIOD_MS : Int) (s : State) : Int :=
  Int.tdiv s.fall_period portTICK_PERIOD_MS

/-- The number of iterations of `TaskTileFall` in a sequence of steps. -/
def fall_count : List Step → Nat
  | [] => 0
  | Step.fall _ :: rest => fall_count rest + 1
  | Step.press _ _ :: rest => fall_count rest

/-! ## The lanes -/

/-- The contract of `random(0,4)`: every value drawn is in `[0, 4)`. -/
def random_in_range (rnd : Nat → Int) : Prop :=
  ∀ k, 0 ≤ rnd k ∧ rnd k < 4

/-- The values of `random(0,4)` used by a step are in `[0, 4)`. -/
def step_random_in_range : Step → Prop
  | Step.fall rnd => random_in_range rnd
  | Step.press _ r => 0 ≤ r ∧ r < 4

/-- Every tile of `tile_list` is in one of the four lanes. -/
def lanes_in_range (s : State) : Prop :=
  ∀ j, 0 ≤ (s.tile_list j).lane ∧ (s.tile_list j).lane < 4

/-- The state after 200 iterations of `TaskTileFall`. -/
def tempo_final : State :=
  (run (fall_steps 200) (initial_state (fun _ => 0))).getD (initial_state (fun _ => 0))

/-- A state whose tile 0 is on row 0 and is not the active tile (the active tile is tile 1,
on row 2). -/
def recycle_state : State :=
  { row_zero_state with bottom_tile := 1 }

/-! ## `TaskTileDisplay` -/

/-- The constant `OFF_SCREEN`. -/
def OFF_SCREEN : Int := 9

/-- The read `a[i]` of one of the arrays `ROW` and `COL` (8 entries each) for a C `int`
index. -/
def array8_at (a : Fin 8 → Int) (i : Int) : Option Int :=
  if h : 0 ≤ i ∧ i < 8 then some (a ⟨i.toNat, by omega⟩) else none

/-- The assignment `ROW_PORT = ~(ROW[2*t.lane] | ROW[2*t.lane+1])`; the port is 8 bits
wide. -/
def display_rows (ROW : Fin 8 → Int) (t : tile) (s : State) : Option State :=
  match array8_at ROW (2 * t.lane) with
  | none => none
  | some a =>
    match array8_at ROW (2 * t.lane + 1) with
    | none => none
    | some b => some { s with ROW_PORT := (~~~ (Int.lor a b)) % 256 }

/-- The body of the loop of `TaskTileDisplay` for the tile `t`, up to `vTaskDelay(1)`.  The
entries of `ROW` and `COL` are bit masks built from macros that `main.c` does not define;
the two arrays are parameters. -/
def display_tile (ROW COL : Fin 8 → Int) (t : tile) (s : State) : Option State :=
  if t.is_pressed = true then some s
  else if t.row = OFF_SCREEN - 1 then
    match display_rows ROW t s with
    | none => none
    | some s1 =>
      match array8_at COL (t.row - 1) with
      | none => none
      | some c => some { s1 with COL_PORT := c % 256 }
  else if t.row = 0 then
    match display_rows ROW t s with
    | none => none
    | some s1 =>
      match array8_at COL t.row with
      | none => none
      | some c => some { s1 with COL_PORT := c % 256 }
  else if t.row < 8 then
    match display_rows ROW t s with
    | none => none
    | some s1 =>
      match array8_at COL t.row with
      | none => none
      | some c =>
        match array8_at COL (t.row - 1) with
        | none => none
        | some d => some { s1 with COL_PORT := (Int.lor c d) % 256 }
  else some s

/-- The loop of `TaskTileDisplay` from index `i` on: the condition
`i < NGGYU_LENGTH && tile_list[i].row <= OFF_SCREEN`, the body and `i++`.  The first
argument bounds the number of iterations; running out of it gives no result.  The
`vTaskDelay(1)` that ends the body is a scheduling point; the loop is run here on one
state. -/
def display_loop (ROW COL : Fin 8 → Int) : Nat → Int → State → Option State
  | 0, _, _ => none
  | n + 1, i, s =>
    if i < 50 then
      match tile_at s.tile_list i with
      | none => none
      | some t =>
        if t.row ≤ OFF_SCREEN then
          match display_tile ROW COL t s with
          | none => none
          | some s1 => display_loop ROW COL n (i + 1) s1
        else some s
    else some s

/-- One pass of the outer loop of `TaskTileDisplay`: `clear_board()`, then the loop over
the tiles from `bottom_tile` on.  The index grows by one per iteration and the loop stops
at 50, so 51 iterations are enough from any index at least 0. -/
def TaskTileDisplay_pass (ROW COL : Fin 8 → Int) (s : State) : Option State :=
  display_loop ROW COL 51 (clear_board s).bottom_tile (clear_board s)

/-- The rows of the matrix as bit masks, with the bit numbers `PC7 .. PC0 = 7 .. 0` of the
AVR headers (an example of the parameter `ROW`). -/
def ROW_bits : Fin 8 → Int := ![128, 64, 32, 16, 8, 4, 2, 1]

/-- The columns of the matrix as bit masks, with the bit numbers `PL7 .. PL0 = 7 .. 0` of
the AVR headers (an example of the parameter `COL`). -/
def COL_bits : Fin 8 → Int := ![128, 64, 32, 16, 8, 4, 2, 1]

/-! ## Lemmas on the embedding -/

theorem tile_at_coe (tl : Fin 50 → tile) (b : Fin 50) :
    tile_at tl ((b : Nat) : Int) = some (tl b) := by
  have h : 0 ≤ ((b : Nat) : Int) ∧ ((b : Nat) : Int) < 50 := by omega
  simp [tile_at, h]

theorem tile_at_eq_some {tl : Fin 50 → tile} {i : Int} {t : tile}
    (h : tile_at tl i = some t) : ∃ b : Fin 50, i = ((b : Nat) : Int) ∧ tl b = t := by
  unfold tile_at at h
  split at h
  · rename_i hi
    refine ⟨⟨i.toNat, by omega⟩, ?_, by simpa using h⟩
    simp; omega
  · simp at h

theorem set_tile_coe (tl : Fin 50 → tile) (b : Fin 50) (f : tile → tile) :
    set_tile tl ((b : Nat) : Int) f = some (Function.update tl b (f (tl b))) := by
  have h : 0 ≤ ((b : Nat) : Int) ∧ ((b : Nat) : Int) < 50 := by omega
  simp [set_tile, h]

theorem button_at_coe (bs : Fin 4 → bp_state) (i : Fin 4) :
    button_at bs ((i : Nat) : Int) = some (bs i) := by
  have h : 0 ≤ ((i : Nat) : Int) ∧ ((i : Nat) : Int) < 4 := by omega
  simp [button_at, h]

/-- A button state other than `NOT_PRESSED` is a pressed one. -/
theorem bp_state_pressed_or (x : bp_state) :
    (x = bp_state.INIT_PRESSED ∨ x = bp_state.CONT_PRESSED) ∨ x = bp_state.NOT_PRESSED := by
  cases x <;> simp

/-- The loop that determines `pressed_button`, unrolled. -/
theorem pressed_button_eq (bs : Fin 4 → bp_state) :
    pressed_button bs =
      if bs 3 = bp_state.INIT_PRESSED ∨ bs 3 = bp_state.CONT_PRESSED then 3
      else if bs 2 = bp_state.INIT_PRESSED ∨ bs 2 = bp_state.CONT_PRESSED then 2
      else if bs 1 = bp_state.INIT_PRESSED ∨ bs 1 = bp_state.CONT_PRESSED then 1
      else if bs 0 = bp_state.INIT_PRESSED ∨ bs 0 = bp_state.CONT_PRESSED then 0
      else -1 := by
  simp only [pressed_button, List.foldl, pressed_button_step]
  split_ifs <;> rfl

theorem forall_fin4 (P : Fin 4 → Prop) (p0 : P 0) (p1 : P 1) (p2 : P 2) (p3 : P 3) :
    ∀ i, P i := by
  intro i
  fin_cases i <;> assumption

/-- The loop that determines `pressed_button` returns `-1` when no button is pressed and
otherwise the highest index of a pressed button. -/
theorem pressed_button_cases (bs : Fin 4 → bp_state) :
    (pressed_button bs = -1 ∧ ∀ i, bs i = bp_state.NOT_PRESSED) ∨
    ∃ i : Fin 4, pressed_button bs = ((i : Nat) : Int) ∧
      (bs i = bp_state.INIT_PRESSED ∨ bs i = bp_state.CONT_PRESSED) ∧
      ∀ j : Fin 4, i < j → bs j = bp_state.NOT_PRESSED := by
  rw [pressed_button_eq]
  rcases bp_state_pressed_or (bs 3) with h3 | h3
  · refine Or.inr ⟨3, by rw [if_pos h3]; rfl, h3, ?_⟩
    intro j hj
    exact absurd hj (by omega)
  rcases bp_state_pressed_or (bs 2) with h2 | h2
  · refine Or.inr ⟨2, by simp [h2, h3], h2, ?_⟩
    refine forall_fin4 _ ?_ ?_ ?_ ?_ <;> first | (intro hj; exact absurd hj (by decide)) | (intro _; assumption)
  rcases bp_state_pressed_or (bs 1) with h1 | h1
  · refine Or.inr ⟨1, by simp [h1, h2, h3], h1, ?_⟩
    refine forall_fin4 _ ?_ ?_ ?_ ?_ <;> first | (intro hj; exact absurd hj (by decide)) | (intro _; assumption)
  rcases bp_state_pressed_or (bs 0) with h0 | h0
  · refine Or.inr ⟨0, by simp [h0, h1, h2, h3], h0, ?_⟩
    refine forall_fin4 _ ?_ ?_ ?_ ?_ <;> first | (intro hj; exact absurd hj (by decide)) | (intro _; assumption)
  · refine Or.inl ⟨by simp [h0, h1, h2, h3], ?_⟩
    exact forall_fin4 _ h0 h1 h2 h3

theorem button_at_neg_one (bs : Fin 4 → bp_state) : button_at bs (-1) = none := by
  simp [button_at]

/-- The branch of `TaskButtonPress` when no button is pressed. -/
theorem resolve_branch_no_press (s : State) (t : tile)
    (ht : tile_at s.tile_list s.bottom_tile = some t)
    (hpb : pressed_button s.button_states = -1) :
    resolve_branch s =
      if t.row < 0 then some Branch.game_over
      else if t.lane = -1 then none else some Branch.idle := by
  unfold resolve_branch
  simp only [ht, hpb, button_at_neg_one]
  by_cases hrow : t.row < 0
  · simp [hrow]
  · by_cases hl : t.lane = -1
    · simp [hrow, hl]
    · have hl2 : ¬ (-1 : Int) = t.lane := fun h => hl h.symm
      simp [hrow, hl, hl2]

/-- The branch of `TaskButtonPress` when `pressed_button` is the lane `i`. -/
theorem resolve_branch_press (s : State) (t : tile) (i : Fin 4)
    (ht : tile_at s.tile_list s.bottom_tile = some t)
    (hpb : pressed_button s.button_states = ((i : Nat) : Int)) :
    resolve_branch s =
      if ((i : Nat) : Int) ≠ t.lane ∧ (t.row < 0 ∨ s.button_states i = bp_state.INIT_PRESSED)
        then some Branch.game_over
      else if ((i : Nat) : Int) = t.lane ∧ s.button_states i = bp_state.INIT_PRESSED
        then some Branch.hit
      else some Branch.idle := by
  have hne : ((i : Nat) : Int) ≠ -1 := by omega
  unfold resolve_branch
  simp only [ht, hpb, button_at_coe]
  by_cases hl : ((i : Nat) : Int) = t.lane
  · have hl1 : ¬ t.lane = -1 := fun h => hne (hl.trans h)
    by_cases hst : s.button_states i = bp_state.INIT_PRESSED
    · simp [hl, hst, hl1]
    · simp [hl, hst, hl1]
  · by_cases hst : s.button_states i = bp_state.INIT_PRESSED
    · simp [hl, hst, hne]
    · by_cases hrow : t.row < 0
      · simp [hl, hst, hne, hrow]
      · simp [hl, hst, hne, hrow]

/-- The state of every button after `update_buttons`. -/
theorem update_buttons_apply (digitalRead : Fin 4 → Bool) (bs : Fin 4 → bp_state) (i : Fin 4) :
    update_buttons digitalRead bs i =
      if digitalRead i = true then
        if bs i = bp_state.INIT_PRESSED ∨ bs i = bp_state.CONT_PRESSED then bp_state.CONT_PRESSED
        else bp_state.INIT_PRESSED
      else bp_state.NOT_PRESSED := by
  have hu : ∀ (j : Fin 4) (b : Fin 4 → bp_state) (k : Fin 4),
      update_button digitalRead j b k =
        if k = j then
          (if digitalRead j = true then
            if b j = bp_state.INIT_PRESSED ∨ b j = bp_state.CONT_PRESSED then
              bp_state.CONT_PRESSED
            else bp_state.INIT_PRESSED
          else bp_state.NOT_PRESSED)
        else b k := by
    intro j b k
    unfold update_button
    by_cases hk : k = j
    · subst hk
      rw [if_pos rfl]
      split_ifs <;> simp
    · rw [if_neg hk]
      split_ifs <;> simp [Function.update, hk]
  simp only [update_buttons, List.foldl, hu]
  fin_cases i <;> simp

/-- The effect of the hit branch when `bottom_tile` is the index `b` of the array. -/
theorem hit_effects_coe (r : Int) (s : State) (b : Fin 50)
    (hb : s.bottom_tile = ((b : Nat) : Int)) :
    hit_effects r s =
      some { s with
        tile_list := Function.update s.tile_list b { lane := r, row := 105, is_pressed := false }
        note_index := s.note_index + 1
        score := s.score + 1
        bottom_tile := ((b : Nat) : Int) + 1 } := by
  unfold hit_effects
  simp only [hb, set_tile_coe]
  simp

/-- No array access of the hit branch succeeds when `bottom_tile` is outside the array. -/
theorem tile_at_none {tl : Fin 50 → tile} {i : Int} (h : ¬ (0 ≤ i ∧ i < 50)) :
    tile_at tl i = none := by
  simp [tile_at, h]

/-! ### The loop of `TaskTileFall` -/

/-- What one iteration of the loop of `TaskTileFall` makes of tile `j`, when `random`
returns `lane`. -/
theorem fall_body_apply (bottom : Int) (rnd : Nat → Int) (acc : (Fin 50 → tile) × Nat)
    (i j : Fin 50) :
    (fall_body bottom rnd acc i).1 j =
      if j = i then
        (if (acc.1 i).row - 1 < 0 ∧ ((i : Nat) : Int) ≠ bottom then
          { lane := rnd acc.2, row := 105, is_pressed := false }
        else { acc.1 i with row := (acc.1 i).row - 1 })
      else acc.1 j := by
  have h105 : (2 * 49 + 7 : Int) = 105 := by norm_num
  unfold fall_body
  dsimp only
  rw [h105]
  by_cases hc : (acc.1 i).row - 1 < 0 ∧ ((i : Nat) : Int) ≠ bottom
  · rw [if_pos hc, if_pos hc]
    by_cases hj : j = i
    · subst hj
      simp
    · simp [Function.update, hj]
  · rw [if_neg hc, if_neg hc]
    by_cases hj : j = i
    · subst hj
      simp
    · simp [Function.update, hj]

/-- After iterations `0 .. n-1` of the loop of `TaskTileFall`, the tiles below `n` have
been moved (or reset) and the others are untouched. -/
theorem fall_loop_apply (bottom : Int) (rnd : Nat → Int) (tl : Fin 50 → tile) (k : Nat)
    (n : Nat) (j : Fin 50) :
    ((j : Nat) < n → ∃ m : Nat, (fall_loop bottom rnd n (tl, k)).1 j =
        if (tl j).row - 1 < 0 ∧ ((j : Nat) : Int) ≠ bottom then
          { lane := rnd m, row := 105, is_pressed := false }
        else { tl j with row := (tl j).row - 1 }) ∧
    (n ≤ (j : Nat) → (fall_loop bottom rnd n (tl, k)).1 j = tl j) := by
  induction n with
  | zero =>
    refine ⟨fun h => absurd h (Nat.not_lt_zero _), fun _ => rfl⟩
  | succ n ih =>
    by_cases hn : n < 50
    · have hstep : fall_loop bottom rnd (n + 1) (tl, k) =
          fall_body bottom rnd (fall_loop bottom rnd n (tl, k)) ⟨n, hn⟩ := by
        simp [fall_loop, hn]
      rw [hstep, fall_body_apply]
      by_cases hj : j = ⟨n, hn⟩
      · subst hj
        have hself := ih.2 (Nat.le_refl _)
        simp only [if_true]
        refine ⟨fun _ => ⟨(fall_loop bottom rnd n (tl, k)).2, ?_⟩, fun h => ?_⟩
        · simp only [hself]
        · exact absurd h (by simp)
      · have hjn : (j : Nat) ≠ n := fun h => hj (Fin.ext h)
        simp only [hj, if_false]
        refine ⟨fun h => ih.1 (by omega), fun h => ih.2 (by omega)⟩
    · have hstep : fall_loop bottom rnd (n + 1) (tl, k) = fall_loop bottom rnd n (tl, k) := by
        simp [fall_loop, hn]
      rw [hstep]
      refine ⟨fun _ => ih.1 (by omega), fun h => ?_⟩
      exact absurd j.isLt (by omega)

/-- Every tile after one run of the loop of `TaskTileFall`. -/
theorem fall_loop_full (bottom : Int) (rnd : Nat → Int) (tl : Fin 50 → tile) (j : Fin 50) :
    ∃ m : Nat, (fall_loop bottom rnd 50 (tl, 0)).1 j =
      if (tl j).row - 1 < 0 ∧ ((j : Nat) : Int) ≠ bottom then
        { lane := rnd m, row := 105, is_pressed := false }
      else { tl j with row := (tl j).row - 1 } :=
  (fall_loop_apply bottom rnd tl 0 50 j).1 j.isLt

/-- The row of every tile after one run of the loop of `TaskTileFall`. -/
theorem fall_loop_row (bottom : Int) (rnd : Nat → Int) (tl : Fin 50 → tile) (j : Fin 50) :
    ((fall_loop bottom rnd 50 (tl, 0)).1 j).row =
      if (tl j).row - 1 < 0 ∧ ((j : Nat) : Int) ≠ bottom then 105 else (tl j).row - 1 := by
  obtain ⟨m, hm⟩ := fall_loop_full bottom rnd tl j
  rw [hm]
  split_ifs <;> rfl

/-- The lane of every tile after one run of the loop of `TaskTileFall`: drawn by `random`
or unchanged. -/
theorem fall_loop_lane (bottom : Int) (rnd : Nat → Int) (tl : Fin 50 → tile) (j : Fin 50) :
    (∃ m : Nat, ((fall_loop bottom rnd 50 (tl, 0)).1 j).lane = rnd m) ∨
      ((fall_loop bottom rnd 50 (tl, 0)).1 j).lane = (tl j).lane := by
  obtain ⟨m, hm⟩ := fall_loop_full bottom rnd tl j
  rw [hm]
  by_cases hc : (tl j).row - 1 < 0 ∧ ((j : Nat) : Int) ≠ bottom
  · rw [if_pos hc]
    exact Or.inl ⟨m, rfl⟩
  · rw [if_neg hc]
    exact Or.inr rfl

/-- The tile at `bottom_tile` only moves down by one row in the loop of `TaskTileFall`. -/
theorem fall_loop_bottom (rnd : Nat → Int) (tl : Fin 50 → tile) (b : Fin 50) :
    (fall_loop ((b : Nat) : Int) rnd 50 (tl, 0)).1 b = { tl b with row := (tl b).row - 1 } := by
  obtain ⟨m, hm⟩ := fall_loop_full ((b : Nat) : Int) rnd tl b
  rw [hm]
  simp

/-! ### Fields left alone by the operations -/

theorem end_game_tile_list (s : State) : (end_game s).tile_list = s.tile_list := rfl

theorem end_game_bottom_tile (s : State) : (end_game s).bottom_tile = s.bottom_tile := rfl

theorem end_game_score (s : State) : (end_game s).score = s.score := rfl

theorem end_game_fall_period (s : State) : (end_game s).fall_period = s.fall_period := rfl

theorem end_game_button_states (s : State) :
    (end_game s).button_states = s.button_states := rfl

theorem end_game_game_over (s : State) : game_over (end_game s) := ⟨rfl, rfl⟩

theorem sample_buttons_tile_list (d : Fin 4 → Bool) (s : State) :
    (sample_buttons d s).tile_list = s.tile_list := rfl

theorem sample_buttons_bottom_tile (d : Fin 4 → Bool) (s : State) :
    (sample_buttons d s).bottom_tile = s.bottom_tile := rfl

theorem sample_buttons_score (d : Fin 4 → Bool) (s : State) :
    (sample_buttons d s).score = s.score := rfl

theorem sample_buttons_fall_period (d : Fin 4 → Bool) (s : State) :
    (sample_buttons d s).fall_period = s.fall_period := rfl

theorem sample_buttons_button_states (d : Fin 4 → Bool) (s : State) :
    (sample_buttons d s).button_states = update_buttons d s.button_states := rfl

theorem TaskTileFall_tick_score (rnd : Nat → Int) (s : State) :
    (TaskTileFall_tick rnd s).score = s.score := by
  simp only [TaskTileFall_tick]

theorem TaskTileFall_tick_button_states (rnd : Nat → Int) (s : State) :
    (TaskTileFall_tick rnd s).button_states = s.button_states := by
  simp only [TaskTileFall_tick]

theorem TaskTileFall_tick_fall_period (rnd : Nat → Int) (s : State) :
    (TaskTileFall_tick rnd s).fall_period = s.fall_period - 1 := by
  simp only [TaskTileFall_tick]

theorem TaskTileFall_tick_bottom_tile (rnd : Nat → Int) (s : State) :
    (TaskTileFall_tick rnd s).bottom_tile = if s.bottom_tile ≥ 50 then 0 else s.bottom_tile := by
  simp only [TaskTileFall_tick]

theorem TaskTileFall_tick_tile_list (rnd : Nat → Int) (s : State) :
    (TaskTileFall_tick rnd s).tile_list =
      (fall_loop (if s.bottom_tile ≥ 50 then 0 else s.bottom_tile) rnd 50 (s.tile_list, 0)).1 := by
  simp only [TaskTileFall_tick]

theorem TaskTileFall_tick_suspended (rnd : Nat → Int) (s : State) :
    (TaskTileFall_tick rnd s).tileDisplaySuspended = s.tileDisplaySuspended ∧
      (TaskTileFall_tick rnd s).speakerSuspended = s.speakerSuspended := by
  simp only [TaskTileFall_tick, and_self]

/-- An iteration of `TaskTileFall` and the call `update_buttons()` commute. -/
theorem sample_buttons_fall_comm (d : Fin 4 → Bool) (rnd : Nat → Int) (s : State) :
    sample_buttons d (TaskTileFall_tick rnd s) = TaskTileFall_tick rnd (sample_buttons d s) := by
  simp only [sample_buttons, TaskTileFall_tick]

/-! ### The three outcomes of an iteration of `TaskButtonPress` -/

theorem TaskButtonPress_resolve_game_over (r : Int) (s : State)
    (h : resolve_branch s = some Branch.game_over) :
    TaskButtonPress_resolve r s = some (end_game s) := by
  simp [TaskButtonPress_resolve, h]

theorem TaskButtonPress_resolve_idle (r : Int) (s : State)
    (h : resolve_branch s = some Branch.idle) :
    TaskButtonPress_resolve r s = some s := by
  simp [TaskButtonPress_resolve, h]

theorem TaskButtonPress_resolve_hit (r : Int) (s : State)
    (h : resolve_branch s = some Branch.hit) :
    TaskButtonPress_resolve r s = hit_effects r s := by
  simp [TaskButtonPress_resolve, h]

/-- A branch is only chosen after a successful read of `tile_list[bottom_tile]`. -/
theorem resolve_branch_some_index {s : State} {br : Branch} (h : resolve_branch s = some br) :
    ∃ b : Fin 50, s.bottom_tile = ((b : Nat) : Int) := by
  by_cases hr : 0 ≤ s.bottom_tile ∧ s.bottom_tile < 50
  · exact ⟨⟨s.bottom_tile.toNat, by omega⟩, by simp; omega⟩
  · have hnone : tile_at s.tile_list s.bottom_tile = none := tile_at_none hr
    simp [resolve_branch, hnone] at h

/-- An iteration of `TaskButtonPress` whose array reads fail has no result. -/
theorem TaskButtonPress_resolve_out_of_range (r : Int) (s : State)
    (h : ¬ (0 ≤ s.bottom_tile ∧ s.bottom_tile < 50)) :
    TaskButtonPress_resolve r s = none := by
  have hnone : tile_at s.tile_list s.bottom_tile = none := tile_at_none h
  simp [TaskButtonPress_resolve, resolve_branch, hnone]

/-- The result of an iteration of `TaskButtonPress`, by branch. -/
theorem TaskButtonPress_resolve_cases (r : Int) (s s1 : State)
    (h : TaskButtonPress_resolve r s = some s1) :
    (resolve_branch s = some Branch.game_over ∧ s1 = end_game s) ∨
    (resolve_branch s = some Branch.idle ∧ s1 = s) ∨
    (resolve_branch s = some Branch.hit ∧ ∃ b : Fin 50, s.bottom_tile = ((b : Nat) : Int) ∧
      s1 = { s with
        tile_list := Function.update s.tile_list b { lane := r, row := 105, is_pressed := false }
        note_index := s.note_index + 1
        score := s.score + 1
        bottom_tile := ((b : Nat) : Int) + 1 }) := by
  cases hbr : resolve_branch s with
  | none => simp [TaskButtonPress_resolve, hbr] at h
  | some br =>
    cases br with
    | game_over =>
      rw [TaskButtonPress_resolve_game_over r s hbr] at h
      exact Or.inl ⟨rfl, (Option.some.inj h).symm⟩
    | idle =>
      rw [TaskButtonPress_resolve_idle r s hbr] at h
      exact Or.inr (Or.inl ⟨rfl, (Option.some.inj h).symm⟩)
    | hit =>
      obtain ⟨b, hb⟩ := resolve_branch_some_index hbr
      rw [TaskButtonPress_resolve_hit r s hbr, hit_effects_coe r s b hb] at h
      exact Or.inr (Or.inr ⟨rfl, b, hb, (Option.some.inj h).symm⟩)

/-- An iteration of `TaskButtonPress` never writes `button_states` after `update_buttons`. -/
theorem TaskButtonPress_resolve_button_states (r : Int) (s s1 : State)
    (h : TaskButtonPress_resolve r s = some s1) : s1.button_states = s.button_states := by
  rcases TaskButtonPress_resolve_cases r s s1 h with ⟨_, rfl⟩ | ⟨_, rfl⟩ | ⟨_, b, _, rfl⟩ <;> rfl

/-- An iteration of `TaskButtonPress` adds one to `score` in the hit branch and leaves it
alone otherwise. -/
theorem TaskButtonPress_resolve_score (r : Int) (s s1 : State)
    (h : TaskButtonPress_resolve r s = some s1) :
    (resolve_branch s = some Branch.hit ∧ s1.score = s.score + 1) ∨
    (resolve_branch s ≠ some Branch.hit ∧ s1.score = s.score) := by
  rcases TaskButtonPress_resolve_cases r s s1 h with ⟨hb, rfl⟩ | ⟨hb, rfl⟩ | ⟨hb, b, _, rfl⟩
  · exact Or.inr ⟨by rw [hb]; simp, rfl⟩
  · exact Or.inr ⟨by rw [hb]; simp, rfl⟩
  · exact Or.inl ⟨hb, rfl⟩

theorem pressed_button_of_highest (bs : Fin 4 → bp_state) (L : Fin 4)
    (hL : bs L = bp_state.INIT_PRESSED ∨ bs L = bp_state.CONT_PRESSED)
    (hhigh : ∀ j : Fin 4, L < j → bs j = bp_state.NOT_PRESSED) :
    pressed_button bs = ((L : Nat) : Int) := by
  rcases pressed_button_cases bs with ⟨_, hall⟩ | ⟨i, hi, hst, hup⟩
  · have := hall L
    rcases hL with h | h <;> rw [h] at this <;> cases this
  · rcases lt_trichotomy i L with h | h | h
    · have := hup L h
      rcases hL with h1 | h1 <;> rw [h1] at this <;> cases this
    · rw [hi, h]
    · have := hhigh i h
      rcases hst with h1 | h1 <;> rw [h1] at this <;> cases this

/-- A button read as pressed in two consecutive runs of `update_buttons` is `CONT_PRESSED`
after the second. -/
theorem update_buttons_twice_held (d1 d2 : Fin 4 → Bool) (bs : Fin 4 → bp_state) (L : Fin 4)
    (h1 : d1 L = true) (h2 : d2 L = true) :
    update_buttons d2 (update_buttons d1 bs) L = bp_state.CONT_PRESSED := by
  rw [update_buttons_apply, update_buttons_apply, if_pos h2, if_pos h1]
  split_ifs <;> simp_all

/-- A button read as not pressed is `NOT_PRESSED` after `update_buttons`. -/
theorem update_buttons_released (d : Fin 4 → Bool) (bs : Fin 4 → bp_state) (j : Fin 4)
    (h : d j = false) : update_buttons d bs j = bp_state.NOT_PRESSED := by
  rw [update_buttons_apply]
  simp [h]

/-- A run of steps never lowers the score. -/
theorem step_score (s s1 : State) (st : Step) (h : step s st = some s1) :
    s1.score = s.score ∨ s1.score = s.score + 1 := by
  cases st with
  | fall rnd =>
    simp only [step, Option.some.injEq] at h
    subst h
    exact Or.inl (TaskTileFall_tick_score rnd s)
  | press d r =>
    simp only [step, TaskButtonPress_cycle] at h
    rcases TaskButtonPress_resolve_score r _ s1 h with ⟨_, h2⟩ | ⟨_, h2⟩
    · exact Or.inr (by rw [h2, sample_buttons_score])
    · exact Or.inl (by rw [h2, sample_buttons_score])

theorem run_score (steps : List Step) :
    ∀ s s1 : State, run steps s = some s1 → s.score ≤ s1.score := by
  induction steps with
  | nil =>
    intro s s1 h
    simp only [run, Option.some.injEq] at h
    subst h
    exact le_refl _
  | cons st rest ih =>
    intro s s1 h
    simp only [run] at h
    cases hst : step s st with
    | none => simp [hst] at h
    | some s2 =>
      simp only [hst] at h
      have h1 := step_score s s2 st hst
      have h2 := ih s2 s1 h
      omega

/-- The hit branch is only taken when `pressed_button` is a lane in the press-edge state
that is the lane of the active tile. -/
theorem resolve_branch_hit_imp {s : State} (h : resolve_branch s = some Branch.hit) :
    ∃ (b : Fin 50) (L : Fin 4), s.bottom_tile = ((b : Nat) : Int) ∧
      pressed_button s.button_states = ((L : Nat) : Int) ∧
      s.button_states L = bp_state.INIT_PRESSED ∧
      (s.tile_list b).lane = ((L : Nat) : Int) := by
  obtain ⟨b, hb⟩ := resolve_branch_some_index h
  have ht : tile_at s.tile_list s.bottom_tile = some (s.tile_list b) := by
    rw [hb, tile_at_coe]
  rcases pressed_button_cases s.button_states with ⟨hpb, _⟩ | ⟨L, hpb, _, _⟩
  · rw [resolve_branch_no_press s _ ht hpb] at h
    by_cases hrow : (s.tile_list b).row < 0
    · rw [if_pos hrow] at h
      cases h
    · rw [if_neg hrow] at h
      by_cases hl : (s.tile_list b).lane = -1
      · rw [if_pos hl] at h
        cases h
      · rw [if_neg hl] at h
        cases h
  · rw [resolve_branch_press s _ L ht hpb] at h
    by_cases hc1 : ((L : Nat) : Int) ≠ (s.tile_list b).lane ∧
        ((s.tile_list b).row < 0 ∨ s.button_states L = bp_state.INIT_PRESSED)
    · rw [if_pos hc1] at h
      cases h
    · rw [if_neg hc1] at h
      by_cases hc2 : ((L : Nat) : Int) = (s.tile_list b).lane ∧
          s.button_states L = bp_state.INIT_PRESSED
      · exact ⟨b, L, hb, hpb, hc2.2, hc2.1.symm⟩
      · rw [if_neg hc2] at h
        cases h

/-- An option that holds a value is `some` of that value. -/
theorem eq_some_getD_of_isSome {α : Type} (o : Option α) (d : α) (h : o.isSome = true) :
    o = some (o.getD d) := by
  cases o with
  | none => cases h
  | some x => rfl

/-! ### Initialisation and runs -/

/-- After iterations `0 .. n-1` of the loop of `initialize_tiles`, the tiles below `n` are
set and the others are untouched. -/
theorem initialize_loop_apply (rnd : Nat → Int) (tl : Fin 50 → tile) (n : Nat) (j : Fin 50) :
    ((j : Nat) < n → initialize_loop rnd n tl j =
        { lane := rnd j, row := 2 * ((j : Nat) : Int) + 7, is_pressed := false }) ∧
    (n ≤ (j : Nat) → initialize_loop rnd n tl j = tl j) := by
  induction n with
  | zero => exact ⟨fun h => absurd h (Nat.not_lt_zero _), fun _ => rfl⟩
  | succ n ih =>
    by_cases hn : n < 50
    · have hstep : initialize_loop rnd (n + 1) tl =
          Function.update (initialize_loop rnd n tl) ⟨n, hn⟩
            { lane := rnd n, row := 2 * (n : Int) + 7, is_pressed := false } := by
        simp [initialize_loop, hn]
      rw [hstep]
      by_cases hj : j = ⟨n, hn⟩
      · subst hj
        simp
      · have hjn : (j : Nat) ≠ n := fun h => hj (Fin.ext h)
        simp only [Function.update, hj, dite_false]
        exact ⟨fun h => ih.1 (by omega), fun h => ih.2 (by omega)⟩
    · have hstep : initialize_loop rnd (n + 1) tl = initialize_loop rnd n tl := by
        simp [initialize_loop, hn]
      rw [hstep]
      exact ⟨fun _ => ih.1 (by omega), fun h => absurd j.isLt (by omega)⟩

/-- Every tile after `initialize_tiles`. -/
theorem initialize_tiles_apply (rnd : Nat → Int) (tl : Fin 50 → tile) (j : Fin 50) :
    initialize_tiles rnd tl j =
      { lane := rnd j, row := 2 * ((j : Nat) : Int) + 7, is_pressed := false } :=
  (initialize_loop_apply rnd tl 50 j).1 j.isLt

theorem initial_state_tile (rnd : Nat → Int) (j : Fin 50) :
    (initial_state rnd).tile_list j =
      { lane := rnd j, row := 2 * ((j : Nat) : Int) + 7, is_pressed := false } := by
  simp only [initial_state]
  exact initialize_tiles_apply rnd _ j

theorem run_append (a b : List Step) :
    ∀ s : State, run (a ++ b) s = (run a s).bind (run b) := by
  induction a with
  | nil => intro s; rfl
  | cons st rest ih =>
    intro s
    simp only [List.cons_append, run]
    cases step s st with
    | none => rfl
    | some s1 => exact ih s1

/-- A run from a reachable state ends in a reachable state. -/
theorem run_reachable (steps : List Step) :
    ∀ s s1 : State, Reachable s → run steps s = some s1 → Reachable s1 := by
  induction steps with
  | nil =>
    intro s s1 hs h
    simp only [run, Option.some.injEq] at h
    exact h ▸ hs
  | cons st rest ih =>
    intro s s1 hs h
    simp only [run] at h
    cases hst : step s st with
    | none => simp [hst] at h
    | some s2 =>
      simp only [hst] at h
      refine ih s2 s1 ?_ h
      cases st with
      | fall rnd =>
        simp only [step, Option.some.injEq] at hst
        exact hst ▸ Reachable.fall rnd hs
      | press d r => exact Reachable.press d r hs hst

/-! ### One round of play -/

/-- The hit branch is taken when `pressed_button` is the lane of the active tile and is in
the press-edge state. -/
theorem resolve_branch_hit_of (s : State) (b : Fin 50) (L : Fin 4)
    (hb : s.bottom_tile = ((b : Nat) : Int))
    (hpb : pressed_button s.button_states = ((L : Nat) : Int))
    (hlane : (s.tile_list b).lane = ((L : Nat) : Int))
    (hL : s.button_states L = bp_state.INIT_PRESSED) :
    resolve_branch s = some Branch.hit := by
  have ht : tile_at s.tile_list s.bottom_tile = some (s.tile_list b) := by
    rw [hb, tile_at_coe]
  rw [resolve_branch_press s _ L ht hpb]
  have h1 : ¬ (((L : Nat) : Int) ≠ (s.tile_list b).lane ∧
      ((s.tile_list b).row < 0 ∨ s.button_states L = bp_state.INIT_PRESSED)) :=
    fun h => h.1 hlane.symm
  rw [if_neg h1, if_pos ⟨hlane.symm, hL⟩]

/-- With no button pressed and the active tile on the board in a lane of the game, the
iteration of `TaskButtonPress` changes nothing. -/
theorem resolve_branch_idle_of (s : State) (b : Fin 50)
    (hb : s.bottom_tile = ((b : Nat) : Int))
    (hpb : pressed_button s.button_states = -1)
    (hrow : 0 ≤ (s.tile_list b).row) (hlane : (s.tile_list b).lane ≠ -1) :
    resolve_branch s = some Branch.idle := by
  have ht : tile_at s.tile_list s.bottom_tile = some (s.tile_list b) := by
    rw [hb, tile_at_coe]
  rw [resolve_branch_no_press s _ ht hpb, if_neg (not_lt.mpr hrow), if_neg hlane]

theorem pressed_button_none (bs : Fin 4 → bp_state)
    (h : ∀ i, bs i = bp_state.NOT_PRESSED) : pressed_button bs = -1 := by
  rw [pressed_button_eq]
  simp [h]

/-- Pressing button 0 on a board after `k` rounds hits tile `k`. -/
theorem song_press (k : Nat) (hk : k < 50) (s : State) (h : song_inv k s) :
    ∃ s1, TaskButtonPress_cycle press_lane_zero 0 s = some s1 ∧
      s1.bottom_tile = (k : Int) + 1 ∧
      (∀ j, (s1.tile_list j).lane = 0) ∧
      (∀ j : Fin 50, k + 1 ≤ (j : Nat) →
        (s1.tile_list j).row = 2 * ((j : Nat) : Int) + 7 - (k : Int)) ∧
      s1.tileDisplaySuspended = false ∧ s1.speakerSuspended = false ∧ s1.score = s.score + 1 := by
  obtain ⟨hbt, hlanes, hbs, hrows, hd, hsp⟩ := h
  have hb : (sample_buttons press_lane_zero s).bottom_tile = (((⟨k, hk⟩ : Fin 50) : Nat) : Int) :=
    hbt
  have hbs0 : (sample_buttons press_lane_zero s).button_states 0 = bp_state.INIT_PRESSED := by
    rw [sample_buttons_button_states, update_buttons_apply]
    simp [press_lane_zero, hbs 0]
  have hbsj : ∀ j : Fin 4, 0 < j →
      (sample_buttons press_lane_zero s).button_states j = bp_state.NOT_PRESSED := by
    intro j hj
    rw [sample_buttons_button_states]
    apply update_buttons_released
    fin_cases j
    · exact absurd hj (by decide)
    · rfl
    · rfl
    · rfl
  have hpb := pressed_button_of_highest _ 0 (Or.inl hbs0) hbsj
  have hbr := resolve_branch_hit_of (sample_buttons press_lane_zero s) ⟨k, hk⟩ 0 hb hpb
    (hlanes _) hbs0
  refine ⟨_, (TaskButtonPress_resolve_hit 0 _ hbr).trans (hit_effects_coe 0 _ ⟨k, hk⟩ hb),
    rfl, ?_, ?_, hd, hsp, rfl⟩
  · intro j
    show (Function.update s.tile_list ⟨k, hk⟩ _ j).lane = 0
    by_cases hj : j = ⟨k, hk⟩
    · rw [hj, Function.update_same]
    · rw [Function.update_noteq hj]
      exact hlanes j
  · intro j hj
    show (Function.update s.tile_list ⟨k, hk⟩ _ j).row = _
    have hne : j ≠ ⟨k, hk⟩ := by
      intro h
      have hv : (j : Nat) = k := congrArg Fin.val h
      omega
    rw [Function.update_noteq hne]
    exact hrows j (by omega)

/-- One round of play moves the board from tile `k` to tile `k + 1`. -/
theorem song_round_inv (k : Nat) (hk : k < 49) (s : State) (h : song_inv k s) :
    ∃ s3, run song_round s = some s3 ∧ song_inv (k + 1) s3 ∧ s3.score = s.score + 1 := by
  have hk1 : k + 1 < 50 := by omega
  obtain ⟨s1, hs1, hbt1, hlanes1, hrows1, hd1, hsp1, hsc1⟩ := song_press k (by omega) s h
  have hb1 : (sample_buttons no_press s1).bottom_tile =
      (((⟨k + 1, hk1⟩ : Fin 50) : Nat) : Int) := by
    rw [sample_buttons_bottom_tile, hbt1]
    push_cast
    rfl
  have hbs2 : ∀ i, (sample_buttons no_press s1).button_states i = bp_state.NOT_PRESSED := by
    intro i
    rw [sample_buttons_button_states]
    apply update_buttons_released
    fin_cases i <;> rfl
  have hrow1 : 0 ≤ ((sample_buttons no_press s1).tile_list ⟨k + 1, hk1⟩).row := by
    rw [sample_buttons_tile_list, hrows1 ⟨k + 1, hk1⟩ (le_refl _)]
    push_cast
    omega
  have hlane1 : ((sample_buttons no_press s1).tile_list ⟨k + 1, hk1⟩).lane ≠ -1 := by
    rw [sample_buttons_tile_list, hlanes1]
    decide
  have hbr2 : resolve_branch (sample_buttons no_press s1) = some Branch.idle :=
    resolve_branch_idle_of (sample_buttons no_press s1) ⟨k + 1, hk1⟩ hb1
      (pressed_button_none _ hbs2) hrow1 hlane1
  have hs2 : TaskButtonPress_cycle no_press 0 s1 = some (sample_buttons no_press s1) :=
    TaskButtonPress_resolve_idle 0 _ hbr2
  refine ⟨TaskTileFall_tick (fun _ => 0) (sample_buttons no_press s1), ?_, ?_, ?_⟩
  · simp only [song_round, run, step, hs1, hs2]
  · have hbtv : (sample_buttons no_press s1).bottom_tile = ((k + 1 : Nat) : Int) := by
      rw [sample_buttons_bottom_tile, hbt1]
      simp
    have hnowrap : (if (sample_buttons no_press s1).bottom_tile ≥ 50 then 0
        else (sample_buttons no_press s1).bottom_tile) = ((k + 1 : Nat) : Int) := by
      rw [hbtv]
      have : ¬ (((k + 1 : Nat) : Int) ≥ 50) := by omega
      rw [if_neg this]
    refine ⟨?_, ?_, ?_, ?_, ?_, ?_⟩
    · rw [TaskTileFall_tick_bottom_tile, hnowrap]
    · intro j
      rw [TaskTileFall_tick_tile_list]
      rcases fall_loop_lane
        (if (sample_buttons no_press s1).bottom_tile ≥ 50 then 0
          else (sample_buttons no_press s1).bottom_tile) (fun _ => 0)
        (sample_buttons no_press s1).tile_list j with ⟨m, hm⟩ | hm
      · exact hm
      · rw [hm]
        exact hlanes1 j
    · intro i
      rw [TaskTileFall_tick_button_states]
      exact hbs2 i
    · intro j hj
      rw [TaskTileFall_tick_tile_list, fall_loop_row, sample_buttons_tile_list, hrows1 j hj]
      have hc : ¬ (2 * ((j : Nat) : Int) + 7 - (k : Int) - 1 < 0 ∧
          ((j : Nat) : Int) ≠ (if (sample_buttons no_press s1).bottom_tile ≥ 50 then 0
            else (sample_buttons no_press s1).bottom_tile)) := by
        intro hc
        have := hc.1
        omega
      rw [if_neg hc]
      push_cast
      omega
    · exact (TaskTileFall_tick_suspended _ _).1.trans hd1
    · exact (TaskTileFall_tick_suspended _ _).2.trans hsp1
  · rw [TaskTileFall_tick_score, sample_buttons_score, hsc1]

/-- The initial board, all tiles in lane 0, is the board after 0 rounds. -/
theorem song_inv_initial : song_inv 0 (initial_state (fun _ => 0)) := by
  refine ⟨rfl, ?_, fun _ => rfl, ?_, rfl, rfl⟩
  · intro j
    rw [initial_state_tile]
  · intro j _
    rw [initial_state_tile]
    simp

/-- After `n` rounds of play, at most 49, tile `n` is the active tile and the score is `n`. -/
theorem song_rounds_inv (n : Nat) (hn : n ≤ 49) :
    ∃ s, run (song_rounds n) (initial_state (fun _ => 0)) = some s ∧ song_inv n s ∧
      s.score = (n : Int) := by
  induction n with
  | zero => exact ⟨_, rfl, song_inv_initial, rfl⟩
  | succ n ih =>
    obtain ⟨s, hrun, hinv, hsc⟩ := ih (by omega)
    obtain ⟨s3, hrun3, hinv3, hsc3⟩ := song_round_inv n (by omega) s hinv
    refine ⟨s3, ?_, hinv3, ?_⟩
    · simp only [song_rounds]
      rw [run_append, hrun]
      exact hrun3
    · rw [hsc3, hsc]
      push_cast
      rfl

/-! ### The order of the tiles -/

theorem queue_inv_initial (rnd : Nat → Int) : queue_inv (initial_state rnd) := by
  have hb : (initial_state rnd).bottom_tile = 0 := rfl
  refine ⟨by rw [hb], by rw [hb]; decide, ?_, Or.inl ?_⟩
  · intro j
    rw [initial_state_tile]
    have := j.isLt
    show 2 * ((j : Nat) : Int) + 7 ≤ 105
    omega
  · intro i j hij
    rw [initial_state_tile, initial_state_tile]
    have hi := i.isLt
    have hj := j.isLt
    simp only [queue_position, hb] at hij
    show 2 * ((i : Nat) : Int) + 7 ≤ 2 * ((j : Nat) : Int) + 7
    omega

/-- The wrap of `bottom_tile` at the start of an iteration of `TaskTileFall` gives an index
of the array and does not change the queue. -/
theorem wrap_bottom_tile (b : Int) (h0 : 0 ≤ b) (h50 : b ≤ 50) :
    ∃ bF : Fin 50, (if b ≥ 50 then (0 : Int) else b) = ((bF : Nat) : Int) ∧
      ∀ j : Fin 50, queue_position ((bF : Nat) : Int) j = queue_position b j := by
  by_cases hc : b ≥ 50
  · refine ⟨0, by rw [if_pos hc]; rfl, ?_⟩
    intro j
    have hb : b = 50 := by omega
    unfold queue_position
    rw [hb]
    show (((j : Nat) : Int) - ((0 : Nat) : Int)) % 50 = (((j : Nat) : Int) - 50) % 50
    omega
  · refine ⟨⟨b.toNat, by omega⟩, by rw [if_neg hc]; simp only [Int.toNat_of_nonneg h0], ?_⟩
    intro j
    simp only [Int.toNat_of_nonneg h0]

theorem queue_inv_fall (rnd : Nat → Int) (s : State) (h : queue_inv s) :
    queue_inv (TaskTileFall_tick rnd s) := by
  obtain ⟨hb0, hb50, hmax, hord⟩ := h
  obtain ⟨bF, hbF, hpos⟩ := wrap_bottom_tile s.bottom_tile hb0 hb50
  have hrow : ∀ j : Fin 50, ((TaskTileFall_tick rnd s).tile_list j).row =
      if (s.tile_list j).row - 1 < 0 ∧ ((j : Nat) : Int) ≠ ((bF : Nat) : Int) then 105
      else (s.tile_list j).row - 1 := by
    intro j
    rw [TaskTileFall_tick_tile_list, fall_loop_row, hbF]
  have hbt : (TaskTileFall_tick rnd s).bottom_tile = ((bF : Nat) : Int) := by
    rw [TaskTileFall_tick_bottom_tile, hbF]
  have hmax1 : ∀ j, ((TaskTileFall_tick rnd s).tile_list j).row ≤ 105 := by
    intro j
    rw [hrow j]
    have := hmax j
    by_cases hc : (s.tile_list j).row - 1 < 0 ∧ ((j : Nat) : Int) ≠ ((bF : Nat) : Int)
    · rw [if_pos hc]
    · rw [if_neg hc]
      omega
  have hbottom_row : ((TaskTileFall_tick rnd s).tile_list bF).row = (s.tile_list bF).row - 1 := by
    rw [hrow bF, if_neg (fun hc => hc.2 rfl)]
  have hother : ∀ j : Fin 50, j ≠ bF → 0 ≤ ((TaskTileFall_tick rnd s).tile_list j).row := by
    intro j hj
    rw [hrow j]
    have hne : ((j : Nat) : Int) ≠ ((bF : Nat) : Int) := by
      intro h
      exact hj (Fin.ext (by omega))
    by_cases hc : (s.tile_list j).row - 1 < 0 ∧ ((j : Nat) : Int) ≠ ((bF : Nat) : Int)
    · rw [if_pos hc]
      decide
    · rw [if_neg hc]
      by_contra hneg
      exact hc ⟨by omega, hne⟩
  have hbF50 : ((bF : Nat) : Int) ≤ 50 := by
    have := bF.isLt
    omega
  refine ⟨by rw [hbt]; omega, by rw [hbt]; exact hbF50, hmax1, ?_⟩
  rw [hbt]
  rcases hord with hsorted | ⟨b, hb, hneg, hrest⟩
  · by_cases hreset : ∃ j : Fin 50, j ≠ bF ∧ (s.tile_list j).row - 1 < 0
    · obtain ⟨j, hj, hjrow⟩ := hreset
      right
      refine ⟨bF, rfl, ?_, hother⟩
      have hlt : queue_position s.bottom_tile bF < queue_position s.bottom_tile j := by
        rw [← hpos bF, ← hpos j]
        unfold queue_position
        have hne : (j : Nat) ≠ (bF : Nat) := fun h => hj (Fin.ext h)
        have := j.isLt
        have := bF.isLt
        omega
      have := hsorted bF j hlt
      rw [hbottom_row]
      omega
    · left
      intro i j hij
      rw [hpos i, hpos j] at hij
      have hle := hsorted i j hij
      have hstay : ∀ x : Fin 50,
          ((TaskTileFall_tick rnd s).tile_list x).row = (s.tile_list x).row - 1 := by
        intro x
        by_cases hx : x = bF
        · rw [hx]
          exact hbottom_row
        · rw [hrow x]
          have : ¬ ((s.tile_list x).row - 1 < 0) := fun hlt => hreset ⟨x, hx, hlt⟩
          rw [if_neg (fun hc => this hc.1)]
      rw [hstay i, hstay j]
      omega
  · right
    have hbb : bF = b := by
      apply Fin.ext
      have : ¬ (s.bottom_tile ≥ 50) := by
        have := b.isLt
        omega
      rw [if_neg this, hb] at hbF
      omega
    refine ⟨bF, rfl, ?_, hother⟩
    rw [hbottom_row, hbb]
    omega

/-- A hit made while the active tile is on the board keeps the rows in queue order. -/
theorem queue_inv_hit (r : Int) (s : State) (b : Fin 50) (h : queue_inv s)
    (hb : s.bottom_tile = ((b : Nat) : Int)) (hrow : 0 ≤ (s.tile_list b).row) :
    queue_inv { s with
      tile_list := Function.update s.tile_list b { lane := r, row := 105, is_pressed := false }
      note_index := s.note_index + 1
      score := s.score + 1
      bottom_tile := ((b : Nat) : Int) + 1 } := by
  obtain ⟨_, _, hmax, hord⟩ := h
  have hbl := b.isLt
  have hsorted : ∀ i j : Fin 50,
      queue_position s.bottom_tile i < queue_position s.bottom_tile j →
      (s.tile_list i).row ≤ (s.tile_list j).row := by
    rcases hord with hs | ⟨b1, hb1, hneg, _⟩
    · exact hs
    · have : b1 = b := Fin.ext (by rw [hb] at hb1; omega)
      rw [this] at hneg
      omega
  have hnew : ∀ j : Fin 50,
      (Function.update s.tile_list b { lane := r, row := 105, is_pressed := false } j).row =
        if j = b then 105 else (s.tile_list j).row := by
    intro j
    by_cases hj : j = b
    · rw [hj, Function.update_same, if_pos rfl]
    · rw [Function.update_noteq hj, if_neg hj]
  refine ⟨?_, ?_, ?_, Or.inl ?_⟩
  · show 0 ≤ ((b : Nat) : Int) + 1
    omega
  · show ((b : Nat) : Int) + 1 ≤ 50
    omega
  · intro j
    show (Function.update s.tile_list b _ j).row ≤ 105
    rw [hnew j]
    by_cases hj : j = b
    · rw [if_pos hj]
    · rw [if_neg hj]
      exact hmax j
  · intro i j hij
    show (Function.update s.tile_list b _ i).row ≤ (Function.update s.tile_list b _ j).row
    have hij1 : queue_position (((b : Nat) : Int) + 1) i <
        queue_position (((b : Nat) : Int) + 1) j := hij
    rw [hnew i, hnew j]
    have hil := i.isLt
    have hjl := j.isLt
    unfold queue_position at hij1
    by_cases hj : j = b
    · rw [if_pos hj]
      by_cases hi : i = b
      · rw [if_pos hi]
      · rw [if_neg hi]
        exact hmax i
    · rw [if_neg hj]
      have hjv : (j : Nat) ≠ (b : Nat) := fun h => hj (Fin.ext h)
      by_cases hi : i = b
      · exfalso
        rw [hi] at hij1
        omega
      · rw [if_neg hi]
        have hiv : (i : Nat) ≠ (b : Nat) := fun h => hi (Fin.ext h)
        apply hsorted i j
        unfold queue_position
        rw [hb]
        omega

/-- The invariant holds in every state reached with all hits made on time. -/
theorem queue_inv_of_reachable (s : State) (h : ReachableOnTime s) : queue_inv s := by
  induction h with
  | init rnd => exact queue_inv_initial rnd
  | fall rnd _ ih => exact queue_inv_fall rnd _ ih
  | @press d r s s1 _ hcycle hontime ih =>
    have hsample : queue_inv (sample_buttons d s) := ih
    rcases TaskButtonPress_resolve_cases r _ s1 hcycle with
      ⟨_, rfl⟩ | ⟨_, rfl⟩ | ⟨hbr, b, hb, rfl⟩
    · exact hsample
    · exact hsample
    · have hrow : 0 ≤ (s.tile_list b).row := by
        apply hontime hbr
        have hb1 : s.bottom_tile = ((b : Nat) : Int) := hb
        rw [hb1, tile_at_coe]
      exact queue_inv_hit r (sample_buttons d s) b hsample hb hrow

/-- Every state reached with all hits made on time is reachable. -/
theorem reachable_of_on_time (s : State) (h : ReachableOnTime s) : Reachable s := by
  induction h with
  | init rnd => exact Reachable.init rnd
  | fall rnd _ ih => exact Reachable.fall rnd ih
  | press d r _ hcycle _ ih => exact Reachable.press d r ih hcycle

/-! ### Tiles falling with no button pressed -/

/-- The first tiles after `t` iterations of `TaskTileFall` from the initial board with every
tile in lane 0, for `t` up to 9. -/
theorem fall_steps_rows (t : Nat) (ht : t ≤ 9) :
    ∃ s, run (fall_steps t) (initial_state (fun _ => 0)) = some s ∧
      s.bottom_tile = 0 ∧ (∀ j, (s.tile_list j).lane = 0) ∧
      (∀ i, s.button_states i = bp_state.NOT_PRESSED) ∧
      (s.tile_list 0).row = 7 - (t : Int) ∧ (s.tile_list 1).row = 9 - (t : Int) ∧
      (s.tile_list 2).row = 11 - (t : Int) ∧
      s.tileDisplaySuspended = false ∧ s.speakerSuspended = false := by
  induction t with
  | zero =>
    refine ⟨_, rfl, rfl, ?_, fun _ => rfl, ?_, ?_, ?_, rfl, rfl⟩
    · intro j
      rw [initial_state_tile]
    · rw [initial_state_tile]
      rfl
    · rw [initial_state_tile]
      rfl
    · rw [initial_state_tile]
      rfl
  | succ t ih =>
    obtain ⟨s, hrun, hbt, hlanes, hbs, h0, h1, h2, hd, hsp⟩ := ih (by omega)
    have hwrap : (if s.bottom_tile ≥ 50 then (0 : Int) else s.bottom_tile) = 0 := by
      rw [hbt]
      rfl
    refine ⟨TaskTileFall_tick (fun _ => 0) s, ?_, ?_, ?_, ?_, ?_, ?_, ?_, ?_, ?_⟩
    · simp only [fall_steps]
      rw [run_append, hrun]
      rfl
    · rw [TaskTileFall_tick_bottom_tile, hwrap]
    · intro j
      rw [TaskTileFall_tick_tile_list]
      rcases fall_loop_lane (if s.bottom_tile ≥ 50 then 0 else s.bottom_tile) (fun _ => 0)
        s.tile_list j with ⟨m, hm⟩ | hm
      · exact hm
      · rw [hm]
        exact hlanes j
    · intro i
      rw [TaskTileFall_tick_button_states]
      exact hbs i
    · rw [TaskTileFall_tick_tile_list, fall_loop_row, hwrap, h0, if_neg (fun hc => hc.2 rfl)]
      push_cast
      omega
    · rw [TaskTileFall_tick_tile_list, fall_loop_row, hwrap, h1,
        if_neg (fun hc => absurd hc.1 (by omega))]
      push_cast
      omega
    · rw [TaskTileFall_tick_tile_list, fall_loop_row, hwrap, h2,
        if_neg (fun hc => absurd hc.1 (by omega))]
      push_cast
      omega
    · exact (TaskTileFall_tick_suspended _ _).1.trans hd
    · exact (TaskTileFall_tick_suspended _ _).2.trans hsp

/-- The board after ten iterations of `TaskTileFall` with no button pressed: tile 0, still
the active tile, is on row `-3`, tile 1 has been sent back to row 105 and tile 2 is on
row 1. -/
theorem fall_steps_ten :
    ∃ s, run (fall_steps 10) (initial_state (fun _ => 0)) = some s ∧
      s.bottom_tile = 0 ∧ (∀ j, (s.tile_list j).lane = 0) ∧
      (∀ i, s.button_states i = bp_state.NOT_PRESSED) ∧
      (s.tile_list 0).row = -3 ∧ (s.tile_list 1).row = 105 ∧ (s.tile_list 2).row = 1 ∧
      s.tileDisplaySuspended = false ∧ s.speakerSuspended = false := by
  obtain ⟨s, hrun, hbt, hlanes, hbs, h0, h1, h2, hd, hsp⟩ := fall_steps_rows 9 (le_refl _)
  have hwrap : (if s.bottom_tile ≥ 50 then (0 : Int) else s.bottom_tile) = 0 := by
    rw [hbt]
    rfl
  refine ⟨TaskTileFall_tick (fun _ => 0) s, ?_, ?_, ?_, ?_, ?_, ?_, ?_, ?_, ?_⟩
  · simp only [fall_steps] at hrun ⊢
    rw [run_append, hrun]
    rfl
  · rw [TaskTileFall_tick_bottom_tile, hwrap]
  · intro j
    rw [TaskTileFall_tick_tile_list]
    rcases fall_loop_lane (if s.bottom_tile ≥ 50 then 0 else s.bottom_tile) (fun _ => 0)
      s.tile_list j with ⟨m, hm⟩ | hm
    · exact hm
    · rw [hm]
      exact hlanes j
  · intro i
    rw [TaskTileFall_tick_button_states]
    exact hbs i
  · rw [TaskTileFall_tick_tile_list, fall_loop_row, hwrap, h0, if_neg (fun hc => hc.2 rfl)]
    rfl
  · rw [TaskTileFall_tick_tile_list, fall_loop_row, hwrap, h1, if_pos ⟨by decide, by decide⟩]
  · rw [TaskTileFall_tick_tile_list, fall_loop_row, hwrap, h2,
      if_neg (fun hc => absurd hc.1 (by decide))]
    rfl
  · exact (TaskTileFall_tick_suspended _ _).1.trans hd
  · exact (TaskTileFall_tick_suspended _ _).2.trans hsp

/-- Pressing button 0 hits the active tile in lane 0 whatever its row. -/
theorem press_lane_zero_hits (s : State) (b : Fin 50)
    (hb : s.bottom_tile = ((b : Nat) : Int)) (hlane : (s.tile_list b).lane = 0)
    (hbs : ∀ i, s.button_states i = bp_state.NOT_PRESSED) :
    ∃ s1, TaskButtonPress_cycle press_lane_zero 0 s = some s1 ∧
      s1.tile_list =
        Function.update s.tile_list b { lane := 0, row := 105, is_pressed := false } ∧
      s1.bottom_tile = ((b : Nat) : Int) + 1 ∧
      s1.tileDisplaySuspended = s.tileDisplaySuspended ∧
      s1.speakerSuspended = s.speakerSuspended ∧ s1.score = s.score + 1 := by
  have hbs0 : (sample_buttons press_lane_zero s).button_states 0 = bp_state.INIT_PRESSED := by
    rw [sample_buttons_button_states, update_buttons_apply]
    simp [press_lane_zero, hbs 0]
  have hbsj : ∀ j : Fin 4, 0 < j →
      (sample_buttons press_lane_zero s).button_states j = bp_state.NOT_PRESSED := by
    intro j hj
    rw [sample_buttons_button_states]
    apply update_buttons_released
    fin_cases j
    · exact absurd hj (by decide)
    · rfl
    · rfl
    · rfl
  have hpb := pressed_button_of_highest _ 0 (Or.inl hbs0) hbsj
  have hbr := resolve_branch_hit_of (sample_buttons press_lane_zero s) b 0 hb hpb hlane hbs0
  exact ⟨_, (TaskButtonPress_resolve_hit 0 _ hbr).trans (hit_effects_coe 0 _ b hb),
    rfl, rfl, rfl, rfl, rfl⟩

/-- The state after one iteration of `TaskTileFall` and a hit on tile 0 (then on row 6) is
reached with all hits made on time. -/
theorem one_hit_state_on_time : ReachableOnTime one_hit_state := by
  have hb : (TaskTileFall_tick (fun _ => 0) (initial_state (fun _ => 0))).bottom_tile = 0 := by
    rw [TaskTileFall_tick_bottom_tile]
    rfl
  have hrow : ((TaskTileFall_tick (fun _ => 0) (initial_state (fun _ => 0))).tile_list 0).row =
      6 := by
    have hwrap : (if (initial_state (fun _ => 0)).bottom_tile ≥ 50 then (0 : Int)
        else (initial_state (fun _ => 0)).bottom_tile) = (((0 : Fin 50) : Nat) : Int) := rfl
    rw [TaskTileFall_tick_tile_list, hwrap, fall_loop_bottom, initial_state_tile]
    rfl
  have hlane : ((TaskTileFall_tick (fun _ => 0) (initial_state (fun _ => 0))).tile_list 0).lane =
      0 := by
    have hwrap : (if (initial_state (fun _ => 0)).bottom_tile ≥ 50 then (0 : Int)
        else (initial_state (fun _ => 0)).bottom_tile) = (((0 : Fin 50) : Nat) : Int) := rfl
    rw [TaskTileFall_tick_tile_list, hwrap, fall_loop_bottom, initial_state_tile]
  obtain ⟨s1, hs1, _⟩ := press_lane_zero_hits
    (TaskTileFall_tick (fun _ => 0) (initial_state (fun _ => 0))) 0 hb hlane (fun _ => rfl)
  have hone : TaskButtonPress_cycle press_lane_zero 0
      (TaskTileFall_tick (fun _ => 0) (initial_state (fun _ => 0))) = some one_hit_state := by
    unfold one_hit_state
    rw [hs1]
    rfl
  refine ReachableOnTime.press press_lane_zero 0
    (ReachableOnTime.fall (fun _ => 0) (ReachableOnTime.init (fun _ => 0))) hone ?_
  intro _ t ht
  rw [hb] at ht
  have h0 : tile_at (TaskTileFall_tick (fun _ => 0) (initial_state (fun _ => 0))).tile_list
      (((0 : Fin 50) : Nat) : Int) = some t := ht
  rw [tile_at_coe] at h0
  rw [← Option.some.inj h0, hrow]
  decide

/-- In the state after one iteration of `TaskTileFall` and a hit on tile 0, the active tile
is tile 1. -/
theorem one_hit_state_bottom_tile : one_hit_state.bottom_tile = (((1 : Fin 50) : Nat) : Int) := by
  have hb : (TaskTileFall_tick (fun _ => 0) (initial_state (fun _ => 0))).bottom_tile = 0 := by
    rw [TaskTileFall_tick_bottom_tile]
    rfl
  have hlane : ((TaskTileFall_tick (fun _ => 0) (initial_state (fun _ => 0))).tile_list 0).lane =
      0 := by
    have hwrap : (if (initial_state (fun _ => 0)).bottom_tile ≥ 50 then (0 : Int)
        else (initial_state (fun _ => 0)).bottom_tile) = (((0 : Fin 50) : Nat) : Int) := rfl
    rw [TaskTileFall_tick_tile_list, hwrap, fall_loop_bottom, initial_state_tile]
  obtain ⟨s1, hs1, _, hbt, _⟩ := press_lane_zero_hits
    (TaskTileFall_tick (fun _ => 0) (initial_state (fun _ => 0))) 0 hb hlane (fun _ => rfl)
  unfold one_hit_state
  rw [hs1]
  exact hbt

/-! ### Hits with no fall in between -/

/-- After `n` quick rounds on the initial board with every tile in lane 0 (all hits made on
rows at least 0), tile `n` is the active tile, the tiles already hit are on row 105 and the
others are on their initial rows. -/
theorem quick_rounds_inv (n : Nat) (hn : n ≤ 49) :
    ∃ s, run (quick_rounds n) (initial_state (fun _ => 0)) = some s ∧ ReachableOnTime s ∧
      s.bottom_tile = (n : Int) ∧ (∀ j, (s.tile_list j).lane = 0) ∧
      (∀ i, s.button_states i = bp_state.NOT_PRESSED) ∧
      (∀ j : Fin 50, (j : Nat) < n → (s.tile_list j).row = 105) ∧
      (∀ j : Fin 50, n ≤ (j : Nat) → (s.tile_list j).row = 2 * ((j : Nat) : Int) + 7) ∧
      s.tileDisplaySuspended = false := by
  induction n with
  | zero =>
    refine ⟨_, rfl, ReachableOnTime.init _, rfl, ?_, fun _ => rfl, ?_, ?_, rfl⟩
    · intro j
      rw [initial_state_tile]
    · intro j hj
      exact absurd hj (Nat.not_lt_zero _)
    · intro j _
      rw [initial_state_tile]
  | succ n ih =>
    obtain ⟨s, hrun, hreach, hbt, hlanes, hbs, hdone, hrest, hd⟩ := ih (by omega)
    have hn50 : n < 50 := by omega
    have hn1 : n + 1 < 50 := by omega
    have hb : s.bottom_tile = (((⟨n, hn50⟩ : Fin 50) : Nat) : Int) := hbt
    obtain ⟨s1, hs1, htl1, hbt1, hd1, _, _⟩ :=
      press_lane_zero_hits s ⟨n, hn50⟩ hb (hlanes _) hbs
    have hreach1 : ReachableOnTime s1 := by
      refine ReachableOnTime.press press_lane_zero 0 hreach hs1 ?_
      intro _ t ht
      rw [hb, tile_at_coe] at ht
      rw [← Option.some.inj ht, hrest ⟨n, hn50⟩ (le_refl _)]
      show 0 ≤ 2 * (n : Int) + 7
      omega
    have hrow1 : ∀ j : Fin 50, (s1.tile_list j).row =
        if j = ⟨n, hn50⟩ then 105 else (s.tile_list j).row := by
      intro j
      rw [htl1]
      by_cases hj : j = ⟨n, hn50⟩
      · rw [hj, Function.update_same, if_pos rfl]
      · rw [Function.update_noteq hj, if_neg hj]
    have hlane1 : ∀ j : Fin 50, (s1.tile_list j).lane = 0 := by
      intro j
      rw [htl1]
      by_cases hj : j = ⟨n, hn50⟩
      · rw [hj, Function.update_same]
      · rw [Function.update_noteq hj]
        exact hlanes j
    have hb1 : (sample_buttons no_press s1).bottom_tile =
        (((⟨n + 1, hn1⟩ : Fin 50) : Nat) : Int) := by
      rw [sample_buttons_bottom_tile, hbt1]
      push_cast
      rfl
    have hbs2 : ∀ i, (sample_buttons no_press s1).button_states i = bp_state.NOT_PRESSED := by
      intro i
      rw [sample_buttons_button_states]
      apply update_buttons_released
      fin_cases i <;> rfl
    have hne : (⟨n + 1, hn1⟩ : Fin 50) ≠ ⟨n, hn50⟩ := by
      intro h
      have := congrArg Fin.val h
      simp at this
    have hrow2 : 0 ≤ ((sample_buttons no_press s1).tile_list ⟨n + 1, hn1⟩).row := by
      rw [sample_buttons_tile_list, hrow1, if_neg hne, hrest ⟨n + 1, hn1⟩ (Nat.le_succ n)]
      push_cast
      omega
    have hlane2 : ((sample_buttons no_press s1).tile_list ⟨n + 1, hn1⟩).lane ≠ -1 := by
      rw [sample_buttons_tile_list, hlane1]
      decide
    have hbr2 : resolve_branch (sample_buttons no_press s1) = some Branch.idle :=
      resolve_branch_idle_of (sample_buttons no_press s1) ⟨n + 1, hn1⟩ hb1
        (pressed_button_none _ hbs2) hrow2 hlane2
    have hs2 : TaskButtonPress_cycle no_press 0 s1 = some (sample_buttons no_press s1) :=
      TaskButtonPress_resolve_idle 0 _ hbr2
    have hreach2 : ReachableOnTime (sample_buttons no_press s1) := by
      refine ReachableOnTime.press no_press 0 hreach1 hs2 ?_
      intro hhit
      rw [hbr2] at hhit
      cases hhit
    refine ⟨sample_buttons no_press s1, ?_, hreach2, ?_, hlane1, hbs2, ?_, ?_, ?_⟩
    · simp only [quick_rounds]
      rw [run_append, hrun]
      simp only [Option.bind, quick_round, run, step, hs1, hs2]
    · rw [sample_buttons_bottom_tile, hbt1]
      push_cast
      rfl
    · intro j hj
      rw [sample_buttons_tile_list, hrow1]
      by_cases hjn : j = ⟨n, hn50⟩
      · rw [if_pos hjn]
      · rw [if_neg hjn]
        have hv : (j : Nat) ≠ n := fun h => hjn (Fin.ext h)
        exact hdone j (by omega)
    · intro j hj
      have hjn : j ≠ ⟨n, hn50⟩ := by
        intro h
        have hv : (j : Nat) = n := congrArg Fin.val h
        omega
      rw [sample_buttons_tile_list, hrow1, if_neg hjn]
      exact hrest j (by omega)
    · exact hd1.trans hd

/-! ### Digits, lanes, the fall period and the note index -/

/-- The four digits computed by `update_num`, read back one by one. -/
theorem update_num_apply (num : Int) (DIGIT_ARRAY : Fin 4 → Int) :
    update_num num DIGIT_ARRAY 0 = Int.tmod num 10 ∧
    update_num num DIGIT_ARRAY 1 = Int.tdiv (Int.tmod num 100 - Int.tmod num 10) 10 ∧
    update_num num DIGIT_ARRAY 2 =
      Int.tdiv (Int.tmod num 1000 - 10 * Int.tdiv (Int.tmod num 100 - Int.tmod num 10) 10 -
        Int.tmod num 10) 100 ∧
    update_num num DIGIT_ARRAY 3 =
      Int.tdiv (Int.tmod num 10000 -
        100 * Int.tdiv (Int.tmod num 1000 -
          10 * Int.tdiv (Int.tmod num 100 - Int.tmod num 10) 10 - Int.tmod num 10) 100 -
        10 * Int.tdiv (Int.tmod num 100 - Int.tmod num 10) 10 - Int.tmod num 10) 1000 := by
  refine ⟨?_, ?_, ?_, ?_⟩ <;> simp [update_num, Function.update]

/-- An iteration of `TaskButtonPress` never writes `fall_period`. -/
theorem TaskButtonPress_cycle_fall_period (d : Fin 4 → Bool) (r : Int) (s s1 : State)
    (h : TaskButtonPress_cycle d r s = some s1) : s1.fall_period = s.fall_period := by
  rcases TaskButtonPress_resolve_cases r _ s1 h with ⟨_, rfl⟩ | ⟨_, rfl⟩ | ⟨_, b, _, rfl⟩ <;> rfl

/-- The fall period after a run: one less for every iteration of `TaskTileFall`. -/
theorem run_fall_period (steps : List Step) :
    ∀ s s1 : State, run steps s = some s1 →
      s1.fall_period = s.fall_period - (fall_count steps : Int) := by
  induction steps with
  | nil =>
    intro s s1 h
    simp only [run, Option.some.injEq] at h
    subst h
    simp [fall_count]
  | cons st rest ih =>
    intro s s1 h
    simp only [run] at h
    cases hst : step s st with
    | none => simp [hst] at h
    | some s2 =>
      simp only [hst] at h
      have h2 := ih s2 s1 h
      cases st with
      | fall rnd =>
        simp only [step, Option.some.injEq] at hst
        subst hst
        rw [h2, TaskTileFall_tick_fall_period]
        simp only [fall_count]
        push_cast
        omega
      | press d r =>
        have h3 : s2.fall_period = s.fall_period := TaskButtonPress_cycle_fall_period d r s s2 hst
        rw [h2, h3]
        simp only [fall_count]

/-- A run made of iterations of `TaskTileFall` only always has a result. -/
theorem run_fall_steps_isSome (n : Nat) :
    ∀ s : State, (run (fall_steps n) s).isSome = true := by
  induction n with
  | zero => intro s; rfl
  | succ n ih =>
    intro s
    simp only [fall_steps]
    rw [run_append]
    cases h : run (fall_steps n) s with
    | none =>
      have := ih s
      rw [h] at this
      cases this
    | some s1 => rfl

theorem fall_count_append (a b : List Step) :
    fall_count (a ++ b) = fall_count a + fall_count b := by
  induction a with
  | nil => simp [fall_count]
  | cons st rest ih =>
    cases st with
    | fall rnd =>
      show fall_count (rest ++ b) + 1 = fall_count rest + 1 + fall_count b
      rw [ih]
      omega
    | press d r =>
      show fall_count (rest ++ b) = fall_count rest + fall_count b
      exact ih

theorem fall_count_fall_steps (n : Nat) : fall_count (fall_steps n) = n := by
  induction n with
  | zero => rfl
  | succ n ih =>
    simp only [fall_steps]
    rw [fall_count_append, ih]
    rfl

/-- The lanes stay in range through an iteration of `TaskTileFall` that draws lanes in
range. -/
theorem lanes_in_range_fall (rnd : Nat → Int) (s : State) (hrnd : random_in_range rnd)
    (h : lanes_in_range s) : lanes_in_range (TaskTileFall_tick rnd s) := by
  intro j
  rw [TaskTileFall_tick_tile_list]
  rcases fall_loop_lane (if s.bottom_tile ≥ 50 then 0 else s.bottom_tile) rnd s.tile_list j
    with ⟨m, hm⟩ | hm
  · rw [hm]
    exact hrnd m
  · rw [hm]
    exact h j

/-- The lanes stay in range through an iteration of `TaskButtonPress` that draws a lane in
range. -/
theorem lanes_in_range_press (d : Fin 4 → Bool) (r : Int) (s s1 : State)
    (hr : 0 ≤ r ∧ r < 4) (h : lanes_in_range s)
    (hs1 : TaskButtonPress_cycle d r s = some s1) : lanes_in_range s1 := by
  rcases TaskButtonPress_resolve_cases r _ s1 hs1 with ⟨_, rfl⟩ | ⟨_, rfl⟩ | ⟨_, b, _, rfl⟩
  · exact h
  · exact h
  · intro j
    show 0 ≤ (Function.update s.tile_list b _ j).lane ∧
      (Function.update s.tile_list b _ j).lane < 4
    by_cases hj : j = b
    · rw [hj, Function.update_same]
      exact hr
    · rw [Function.update_noteq hj]
      exact h j

theorem lanes_in_range_initial (rnd : Nat → Int) (hrnd : random_in_range rnd) :
    lanes_in_range (initial_state rnd) := by
  intro j
  rw [initial_state_tile]
  exact hrnd j

theorem lanes_in_range_run (steps : List Step) :
    ∀ s s1 : State, (∀ st ∈ steps, step_random_in_range st) → lanes_in_range s →
      run steps s = some s1 → lanes_in_range s1 := by
  induction steps with
  | nil =>
    intro s s1 _ hs h
    simp only [run, Option.some.injEq] at h
    exact h ▸ hs
  | cons st rest ih =>
    intro s s1 hok hs h
    simp only [run] at h
    cases hst : step s st with
    | none => simp [hst] at h
    | some s2 =>
      simp only [hst] at h
      refine ih s2 s1 (fun x hx => hok x (List.mem_cons_of_mem _ hx)) ?_ h
      have hst_ok := hok st (List.mem_cons_self _ _)
      cases st with
      | fall rnd =>
        simp only [step, Option.some.injEq] at hst
        exact hst ▸ lanes_in_range_fall rnd s hst_ok hs
      | press d r => exact lanes_in_range_press d r s s2 hst_ok hs hst

/-- The lanes of the spec scenario are in range. -/
theorem scenario_lanes_in_range : random_in_range scenario_lanes := by
  intro k
  unfold scenario_lanes
  by_cases hk : k = 0
  · rw [if_pos hk]
    decide
  · rw [if_neg hk]
    decide

/-- The steps of the spec scenario draw lanes in range. -/
theorem scenario_steps_in_range :
    ∀ st ∈ scenario_steps ++ after_game_over_steps, step_random_in_range st := by
  intro st hst
  simp only [scenario_steps, after_game_over_steps, List.cons_append, List.nil_append,
    List.mem_cons, List.mem_singleton] at hst
  rcases hst with rfl | rfl | rfl | rfl | rfl | h
  · exact ⟨by decide, by decide⟩
  · exact ⟨by decide, by decide⟩
  · exact ⟨by decide, by decide⟩
  · exact ⟨by decide, by decide⟩
  · exact ⟨by decide, by decide⟩
  · cases h

/-- A source of lanes that always returns the same lane of the game. -/
theorem const_in_range (c : Int) (h : 0 ≤ c ∧ c < 4) : random_in_range (fun _ => c) :=
  fun _ => h

theorem TaskTileFall_tick_note_index (rnd : Nat → Int) (s : State) :
    (TaskTileFall_tick rnd s).note_index = if s.note_index ≥ 50 then 0 else s.note_index := by
  simp only [TaskTileFall_tick]

/-- An iteration of `TaskButtonPress` adds one to `note_index` in the hit branch and leaves
it alone otherwise. -/
theorem TaskButtonPress_resolve_note_index (r : Int) (s s1 : State)
    (h : TaskButtonPress_resolve r s = some s1) :
    (resolve_branch s = some Branch.hit ∧ s1.note_index = s.note_index + 1) ∨
    (resolve_branch s ≠ some Branch.hit ∧ s1.note_index = s.note_index) := by
  rcases TaskButtonPress_resolve_cases r s s1 h with ⟨hb, rfl⟩ | ⟨hb, rfl⟩ | ⟨hb, b, _, rfl⟩
  · exact Or.inr ⟨by rw [hb]; simp, rfl⟩
  · exact Or.inr ⟨by rw [hb]; simp, rfl⟩
  · exact Or.inl ⟨hb, rfl⟩

/-- In every reachable state `note_index` and `bottom_tile` are equal: both start at 0, both
are advanced by the hit branch and both are wrapped by `TaskTileFall`. -/
theorem note_index_eq_bottom_tile (s : State) (h : Reachable s) :
    s.note_index = s.bottom_tile := by
  induction h with
  | init rnd => rfl
  | fall rnd _ ih =>
    rw [TaskTileFall_tick_note_index, TaskTileFall_tick_bottom_tile, ih]
  | @press d r s s1 _ hcycle ih =>
    have hs : (sample_buttons d s).note_index = (sample_buttons d s).bottom_tile := ih
    rcases TaskButtonPress_resolve_cases r _ s1 hcycle with
      ⟨_, rfl⟩ | ⟨_, rfl⟩ | ⟨_, b, hb, rfl⟩
    · exact hs
    · exact hs
    · show (sample_buttons d s).note_index + 1 = ((b : Nat) : Int) + 1
      rw [hs, hb]

/-! ### The indexes used by `TaskTileDisplay` -/

theorem array8_at_in_range (a : Fin 8 → Int) (i : Int) (h : 0 ≤ i ∧ i < 8) :
    ∃ v, array8_at a i = some v := by
  simp [array8_at, h]

theorem array8_at_out_of_range (a : Fin 8 → Int) (i : Int) (h : ¬ (0 ≤ i ∧ i < 8)) :
    array8_at a i = none := by
  simp [array8_at, h]

/-- With the lane in `[0, 4)` both reads of `ROW` are inside the array; only `ROW_PORT` is
written. -/
theorem display_rows_in_range (ROW : Fin 8 → Int) (t : tile) (s : State)
    (hlane : 0 ≤ t.lane ∧ t.lane < 4) :
    ∃ v, display_rows ROW t s = some { s with ROW_PORT := v } := by
  obtain ⟨a, ha⟩ := array8_at_in_range ROW (2 * t.lane) (by omega)
  obtain ⟨b, hb⟩ := array8_at_in_range ROW (2 * t.lane + 1) (by omega)
  refine ⟨(~~~ (Int.lor a b)) % 256, ?_⟩
  simp only [display_rows, ha, hb]

/-- A tile that has not been pressed and is below row 0 takes the third branch of the loop
body, `t.row < 8`, where `COL[t.row]` is a read outside `COL`. -/
theorem display_tile_negative_row (ROW COL : Fin 8 → Int) (t : tile) (s : State)
    (hp : t.is_pressed = false) (hrow : t.row < 0) : display_tile ROW COL t s = none := by
  have h1 : ¬ (t.is_pressed = true) := by
    rw [hp]
    decide
  have h2 : ¬ (t.row = OFF_SCREEN - 1) := by
    unfold OFF_SCREEN
    omega
  have h3 : ¬ (t.row = 0) := by omega
  have h4 : t.row < 8 := by omega
  have hcol : array8_at COL t.row = none := array8_at_out_of_range COL t.row (by omega)
  unfold display_tile
  rw [if_neg h1, if_neg h2, if_neg h3, if_pos h4]
  cases display_rows ROW t s with
  | none => rfl
  | some s1 => simp only [hcol]

/-- For a tile in one of the four lanes that has been pressed or is on a row at least 0,
every index used by the loop body is inside its array; the body writes the two ports
only. -/
theorem display_tile_in_range (ROW COL : Fin 8 → Int) (t : tile) (s : State)
    (hlane : 0 ≤ t.lane ∧ t.lane < 4) (hrow : t.is_pressed = true ∨ 0 ≤ t.row) :
    ∃ s1, display_tile ROW COL t s = some s1 ∧ s1.tile_list = s.tile_list := by
  obtain ⟨v, hv⟩ := display_rows_in_range ROW t s hlane
  unfold display_tile
  by_cases h1 : t.is_pressed = true
  · rw [if_pos h1]
    exact ⟨s, rfl, rfl⟩
  · have h0 : 0 ≤ t.row := by
      rcases hrow with h | h
      · exact absurd h h1
      · exact h
    rw [if_neg h1]
    by_cases h2 : t.row = OFF_SCREEN - 1
    · rw [if_pos h2]
      obtain ⟨c, hc⟩ := array8_at_in_range COL (t.row - 1) (by
        rw [h2]
        unfold OFF_SCREEN
        omega)
      simp only [hv, hc]
      exact ⟨_, rfl, rfl⟩
    · rw [if_neg h2]
      by_cases h3 : t.row = 0
      · rw [if_pos h3]
        obtain ⟨c, hc⟩ := array8_at_in_range COL t.row (by omega)
        simp only [hv, hc]
        exact ⟨_, rfl, rfl⟩
      · rw [if_neg h3]
        by_cases h4 : t.row < 8
        · rw [if_pos h4]
          obtain ⟨c, hc⟩ := array8_at_in_range COL t.row (by omega)
          obtain ⟨d, hd⟩ := array8_at_in_range COL (t.row - 1) (by omega)
          simp only [hv, hc, hd]
          exact ⟨_, rfl, rfl⟩
        · rw [if_neg h4]
          exact ⟨s, rfl, rfl⟩

/-- The loop of `TaskTileDisplay` has no result when the body fails on its first tile. -/
theorem display_loop_first_none (ROW COL : Fin 8 → Int) (n : Nat) (i : Int) (s : State)
    (t : tile) (hi : i < 50) (ht : tile_at s.tile_list i = some t)
    (hrow : t.row ≤ OFF_SCREEN) (hbody : display_tile ROW COL t s = none) :
    display_loop ROW COL (n + 1) i s = none := by
  simp only [display_loop, if_pos hi, ht, if_pos hrow, hbody]

/-- The loop of `TaskTileDisplay` runs to its end, with every index inside its array, when
it starts at an index at least 0, the lanes are in range and every tile from that index on
has been pressed or is on a row at least 0. -/
theorem display_loop_in_range (ROW COL : Fin 8 → Int) (n : Nat) :
    ∀ (i : Int) (s : State), 0 ≤ i → 51 ≤ (n : Int) + i → 1 ≤ n → lanes_in_range s →
      (∀ j : Fin 50, i ≤ ((j : Nat) : Int) →
        (s.tile_list j).is_pressed = true ∨ 0 ≤ (s.tile_list j).row) →
      ∃ s1, display_loop ROW COL n i s = some s1 ∧ s1.tile_list = s.tile_list := by
  induction n with
  | zero =>
    intro i s _ _ h1
    exact absurd h1 (by decide)
  | succ n ih =>
    intro i s hi hfuel _ hlanes hrows
    by_cases hlt : i < 50
    · obtain ⟨b, hb⟩ : ∃ b : Fin 50, i = ((b : Nat) : Int) :=
        ⟨⟨i.toNat, by omega⟩, by simp only [Int.toNat_of_nonneg hi]⟩
      have ht : tile_at s.tile_list i = some (s.tile_list b) := by
        rw [hb, tile_at_coe]
      by_cases hrow : (s.tile_list b).row ≤ OFF_SCREEN
      · obtain ⟨s1, hs1, htl⟩ := display_tile_in_range ROW COL (s.tile_list b) s (hlanes b)
          (hrows b (by omega))
        have hlanes1 : lanes_in_range s1 := by
          intro j
          rw [htl]
          exact hlanes j
        have hrows1 : ∀ j : Fin 50, i + 1 ≤ ((j : Nat) : Int) →
            (s1.tile_list j).is_pressed = true ∨ 0 ≤ (s1.tile_list j).row := by
          intro j hj
          rw [htl]
          exact hrows j (by omega)
        obtain ⟨s2, hs2, htl2⟩ := ih (i + 1) s1 (by omega) (by push_cast at hfuel; omega)
          (by push_cast at hfuel; omega) hlanes1 hrows1
        refine ⟨s2, ?_, htl2.trans htl⟩
        simp only [display_loop, if_pos hlt, ht, if_pos hrow, hs1]
        exact hs2
      · refine ⟨s, ?_, rfl⟩
        simp only [display_loop, if_pos hlt, ht, if_neg hrow]
    · refine ⟨s, ?_, rfl⟩
      simp only [display_loop, if_neg hlt]

/-- No reachable state has a tile with `is_pressed` set: the hit branch sets and clears the
flag in the same iteration. -/
theorem is_pressed_false_of_reachable (s : State) (h : Reachable s) :
    ∀ j, (s.tile_list j).is_pressed = false := by
  induction h with
  | init rnd =>
    intro j
    rw [initial_state_tile]
  | fall rnd _ ih =>
    intro j
    rw [TaskTileFall_tick_tile_list]
    rename_i s0 _
    obtain ⟨m, hm⟩ := fall_loop_full (if s0.bottom_tile ≥ 50 then 0 else s0.bottom_tile) rnd
      s0.tile_list j
    rw [hm]
    by_cases hc : (s0.tile_list j).row - 1 < 0 ∧
        ((j : Nat) : Int) ≠ (if s0.bottom_tile ≥ 50 then 0 else s0.bottom_tile)
    · rw [if_pos hc]
    · rw [if_neg hc]
      exact ih j
  | @press d r s s1 _ hcycle ih =>
    intro j
    rcases TaskButtonPress_resolve_cases r _ s1 hcycle with
      ⟨_, rfl⟩ | ⟨_, rfl⟩ | ⟨_, b, _, rfl⟩
    · exact ih j
    · exact ih j
    · show (Function.update s.tile_list b _ j).is_pressed = false
      by_cases hj : j = b
      · rw [hj, Function.update_same]
      · rw [Function.update_noteq hj]
        exact ih j

/-- One pass of `TaskTileDisplay` uses only indexes inside the arrays when `bottom_tile` is
at least 0, the lanes are in range and every tile from `bottom_tile` on has been pressed or
is on a row at least 0. -/
theorem TaskTileDisplay_pass_in_range (ROW COL : Fin 8 → Int) (s : State)
    (hb : 0 ≤ s.bottom_tile) (hlanes : lanes_in_range s)
    (hrows : ∀ j : Fin 50, s.bottom_tile ≤ ((j : Nat) : Int) →
      (s.tile_list j).is_pressed = true ∨ 0 ≤ (s.tile_list j).row) :
    ∃ s1, TaskTileDisplay_pass ROW COL s = some s1 ∧ s1.tile_list = s.tile_list := by
  have hb1 : 0 ≤ (clear_board s).bottom_tile := hb
  exact display_loop_in_range ROW COL 51 (clear_board s).bottom_tile (clear_board s) hb1
    (by push_cast; omega) (by decide) hlanes hrows

/-- One pass of `TaskTileDisplay` reads outside `COL` when the active tile has not been
pressed and is below row 0. -/
theorem TaskTileDisplay_pass_negative_row (ROW COL : Fin 8 → Int) (s : State) (b : Fin 50)
    (hb : s.bottom_tile = ((b : Nat) : Int)) (hp : (s.tile_list b).is_pressed = false)
    (hrow : (s.tile_list b).row < 0) : TaskTileDisplay_pass ROW COL s = none := by
  have hb1 : (clear_board s).bottom_tile = ((b : Nat) : Int) := hb
  have ht : tile_at (clear_board s).tile_list (clear_board s).bottom_tile =
      some (s.tile_list b) := by
    rw [hb1]
    exact tile_at_coe s.tile_list b
  have hle : (s.tile_list b).row ≤ OFF_SCREEN := by
    unfold OFF_SCREEN
    omega
  have hlt : (clear_board s).bottom_tile < 50 := by
    rw [hb1]
    have := b.isLt
    omega
  exact display_loop_first_none ROW COL 50 _ _ _ hlt ht hle
    (display_tile_negative_row ROW COL _ _ hp hrow)

/-! ## The claims -/

/-- C1, as stated, fails: with the active tile in lane 2 on row 7, lane 0 in the
press-edge state (`INIT_PRESSED`) and lane 2 pressed in the same cycle, the cycle takes
the hit branch: `end_game` is not called, the display is not suspended and the score
becomes 1. -/
theorem wrong_lane_edge_counterexample :
    tile_at two_edges_state.tile_list two_edges_state.bottom_tile =
        some { lane := 2, row := 7, is_pressed := false } ∧
      two_edges_state.button_states 0 = bp_state.INIT_PRESSED ∧
      (((0 : Fin 4) : Nat) : Int) ≠ 2 ∧
      resolve_branch two_edges_state = some Branch.hit ∧
      (TaskButtonPress_resolve 3 two_edges_state).map
        (fun s => (s.tileDisplaySuspended, s.speakerSuspended, s.score)) =
          some (false, false, 1) := by
  decide

/-- C1, amended: if a lane `L` is in the press-edge state (`INIT_PRESSED`), no lane of
higher index is pressed (so `L` is the `pressed_button` of the cycle) and `L` differs from
the lane of the active tile `tile_list[bottom_tile]`, then the part of the iteration of
`TaskButtonPress` after `update_buttons` takes the game-over branch and calls `end_game`,
whatever the states of the lower lanes and whatever the row of the tile. -/
theorem wrong_lane_edge_game_over (s : State) (t : tile) (L : Fin 4) (r : Int)
    (ht : tile_at s.tile_list s.bottom_tile = some t)
    (hL : s.button_states L = bp_state.INIT_PRESSED)
    (hhigh : ∀ j : Fin 4, L < j → s.button_states j = bp_state.NOT_PRESSED)
    (hne : ((L : Nat) : Int) ≠ t.lane) :
    resolve_branch s = some Branch.game_over ∧
      TaskButtonPress_resolve r s = some (end_game s) ∧ game_over (end_game s) := by
  have hpb := pressed_button_of_highest s.button_states L (Or.inl hL) hhigh
  have hbr : resolve_branch s = some Branch.game_over := by
    rw [resolve_branch_press s t L ht hpb, if_pos ⟨hne, Or.inr hL⟩]
  exact ⟨hbr, TaskButtonPress_resolve_game_over r s hbr, rfl, rfl⟩

/-- Witness of C1 amended: active tile in lane 2 on row 7, press edge on lane 0 alone. -/
theorem wrong_lane_edge_game_over_witness :
    resolve_branch wrong_edge_state = some Branch.game_over ∧
      TaskButtonPress_resolve 0 wrong_edge_state = some (end_game wrong_edge_state) ∧
      game_over (end_game wrong_edge_state) :=
  wrong_lane_edge_game_over wrong_edge_state { lane := 2, row := 7, is_pressed := false } 0 0
    (by decide) (by decide) (by decide) (by decide)

/-- C2: when the row of the active tile is below 0 and either no lane is pressed
(`pressed_button = -1`) or `pressed_button` differs from the lane of the tile, the
iteration of `TaskButtonPress` takes the game-over branch and calls `end_game`.  In
particular, from any state whose active tile is on row 0, one iteration of `TaskTileFall`
followed by one iteration of `TaskButtonPress` with no button pressed ends the game. -/
theorem missed_window_game_over (s : State) (t : tile) (r : Int)
    (ht : tile_at s.tile_list s.bottom_tile = some t)
    (hrow : t.row < 0)
    (hpb : pressed_button s.button_states = -1 ∨ pressed_button s.button_states ≠ t.lane) :
    (resolve_branch s = some Branch.game_over ∧
      TaskButtonPress_resolve r s = some (end_game s) ∧ game_over (end_game s)) ∧
    (∀ (s0 : State) (rnd : Nat → Int) (r0 : Int) (b : Fin 50),
      s0.bottom_tile = ((b : Nat) : Int) → (s0.tile_list b).row = 0 →
      ∃ s1, TaskButtonPress_cycle (fun _ => false) r0 (TaskTileFall_tick rnd s0) = some s1 ∧
        game_over s1 ∧ s1.score = s0.score) := by
  constructor
  · have hbr : resolve_branch s = some Branch.game_over := by
      rcases pressed_button_cases s.button_states with ⟨h1, _⟩ | ⟨i, hi, _, _⟩
      · rw [resolve_branch_no_press s t ht h1, if_pos hrow]
      · have hne : ((i : Nat) : Int) ≠ t.lane := by
          rcases hpb with h | h
          · rw [hi] at h
            omega
          · rwa [hi] at h
        rw [resolve_branch_press s t i ht hi, if_pos ⟨hne, Or.inl hrow⟩]
    exact ⟨hbr, TaskButtonPress_resolve_game_over r s hbr, rfl, rfl⟩
  · intro s0 rnd r0 b hb hrow0
    have hbt : (if s0.bottom_tile ≥ 50 then 0 else s0.bottom_tile) = ((b : Nat) : Int) := by
      rw [hb]
      have : ¬ (((b : Nat) : Int) ≥ 50) := by omega
      rw [if_neg this]
    have hbs : pressed_button
        (sample_buttons (fun _ => false) (TaskTileFall_tick rnd s0)).button_states = -1 := by
      rw [pressed_button_eq]
      simp [sample_buttons, update_buttons_apply]
    have htile : tile_at (sample_buttons (fun _ => false) (TaskTileFall_tick rnd s0)).tile_list
        (sample_buttons (fun _ => false) (TaskTileFall_tick rnd s0)).bottom_tile =
        some { s0.tile_list b with row := (s0.tile_list b).row - 1 } := by
      simp only [sample_buttons, TaskTileFall_tick, hbt]
      rw [tile_at_coe, fall_loop_bottom]
    have hbr : resolve_branch (sample_buttons (fun _ => false) (TaskTileFall_tick rnd s0)) =
        some Branch.game_over := by
      rw [resolve_branch_no_press _ _ htile hbs]
      simp [hrow0]
    refine ⟨end_game (sample_buttons (fun _ => false) (TaskTileFall_tick rnd s0)),
      TaskButtonPress_resolve_game_over r0 _ hbr, end_game_game_over _, ?_⟩
    rw [end_game_score, sample_buttons_score, TaskTileFall_tick_score]

/-- Witness of C2: active tile in lane 1 on row `-1` with no button pressed; and active
tile in lane 1 on row 0, one iteration of `TaskTileFall`, then no button pressed. -/
theorem missed_window_game_over_witness :
    (resolve_branch missed_state = some Branch.game_over ∧
      TaskButtonPress_resolve 0 missed_state = some (end_game missed_state) ∧
      game_over (end_game missed_state)) ∧
    ∃ s1, TaskButtonPress_cycle (fun _ => false) 0
        (TaskTileFall_tick (fun _ => 0) row_zero_state) = some s1 ∧
      game_over s1 ∧ s1.score = row_zero_state.score :=
  ⟨(missed_window_game_over missed_state { lane := 1, row := -1, is_pressed := false } 0
      (by decide) (by decide) (by decide)).1,
    (missed_window_game_over missed_state { lane := 1, row := -1, is_pressed := false } 0
      (by decide) (by decide) (by decide)).2 row_zero_state (fun _ => 0) 0 0
      (by decide) (by decide)⟩

/-- C3 (failing input): with the Active Index at 49, tile 49 in lane 2 and a press edge on
lane 2, the iteration of `TaskButtonPress` takes the hit branch, adds one to the score and
recycles tile 49 (row 105, new lane, `is_pressed = false`), but leaves `bottom_tile = 50`
and not `(49 + 1) mod 50 = 0`; the next iteration then reads `tile_list[50]`, outside the
array. -/
theorem hit_at_last_tile_no_wrap :
    last_tile_state.bottom_tile = 49 ∧
      resolve_branch last_tile_state = some Branch.hit ∧
      (TaskButtonPress_resolve 1 last_tile_state).map
        (fun s => (s.bottom_tile, s.score, s.tile_list 49)) =
          some (50, 1, { lane := 1, row := 105, is_pressed := false }) ∧
      (49 + 1 : Int) % 50 = 0 ∧
      ((TaskButtonPress_resolve 1 last_tile_state).bind
        (TaskButtonPress_cycle ![false, false, false, false] 0)).isNone = true := by
  decide

/-- What the hit branch does in general: when `pressed_button` is the lane of the active
tile `b` and that lane is in the press-edge state, the iteration of `TaskButtonPress` adds
one to the score, resets the row of tile `b` to `2*(50-1)+7 = 105`, gives it the lane drawn
by `random`, leaves `is_pressed = false`, leaves the other tiles alone and sets
`bottom_tile` to `b + 1`, without wrapping. -/
theorem hit_recycles_tile (s : State) (b : Fin 50) (L : Fin 4) (r : Int)
    (hb : s.bottom_tile = ((b : Nat) : Int))
    (hpb : pressed_button s.button_states = ((L : Nat) : Int))
    (hlane : (s.tile_list b).lane = ((L : Nat) : Int))
    (hL : s.button_states L = bp_state.INIT_PRESSED) :
    ∃ s1, TaskButtonPress_resolve r s = some s1 ∧ resolve_branch s = some Branch.hit ∧
      s1.score = s.score + 1 ∧
      s1.tile_list b = { lane := r, row := 2 * (50 - 1) + 7, is_pressed := false } ∧
      (∀ j, j ≠ b → s1.tile_list j = s.tile_list j) ∧
      s1.bottom_tile = ((b : Nat) : Int) + 1 ∧
      ((b : Nat) < 49 → s1.bottom_tile = (((b : Nat) : Int) + 1) % 50) := by
  have ht : tile_at s.tile_list s.bottom_tile = some (s.tile_list b) := by
    rw [hb, tile_at_coe]
  have hbr : resolve_branch s = some Branch.hit := by
    rw [resolve_branch_press s _ L ht hpb]
    have h1 : ¬ (((L : Nat) : Int) ≠ (s.tile_list b).lane ∧
        ((s.tile_list b).row < 0 ∨ s.button_states L = bp_state.INIT_PRESSED)) :=
      fun h => h.1 hlane.symm
    rw [if_neg h1, if_pos ⟨hlane.symm, hL⟩]
  refine ⟨_, (TaskButtonPress_resolve_hit r s hbr).trans (hit_effects_coe r s b hb), hbr,
    rfl, ?_, ?_, rfl, ?_⟩
  · simp
  · intro j hj
    simp [Function.update, hj]
  · intro hlt
    show ((b : Nat) : Int) + 1 = (((b : Nat) : Int) + 1) % 50
    omega

/-- The spec scenario for `hit_recycles_tile`: tile 0 in lane 2, press edge on lane 2. -/
theorem hit_recycles_tile_witness :
    ∃ s1, TaskButtonPress_resolve 1 first_hit_state = some s1 ∧
      resolve_branch first_hit_state = some Branch.hit ∧
      s1.score = first_hit_state.score + 1 ∧
      s1.tile_list 0 = { lane := 1, row := 2 * (50 - 1) + 7, is_pressed := false } ∧
      (∀ j, j ≠ 0 → s1.tile_list j = first_hit_state.tile_list j) ∧
      s1.bottom_tile = (((0 : Fin 50) : Nat) : Int) + 1 ∧
      (((0 : Fin 50) : Nat) < 49 → s1.bottom_tile = ((((0 : Fin 50) : Nat) : Int) + 1) % 50) :=
  hit_recycles_tile first_hit_state 0 2 1 (by decide) (by decide) (by decide) (by decide)

/-- C4: only the press edge scores.  When `digitalRead` reads lane `L` as pressed in two
consecutive iterations of `TaskButtonPress`, lane `L` is `CONT_PRESSED` after the second
`update_buttons`, so the second iteration does not take the hit branch with
`pressed_button = L`; and when `L` is the only lane read as pressed in both iterations, the
score after the two iterations is at most the initial score plus one. -/
theorem hold_scores_at_most_once (s : State) (L : Fin 4) (d1 d2 : Fin 4 → Bool) (r1 r2 : Int)
    (h1 : d1 L = true) (h2 : d2 L = true) :
    (∀ s1, TaskButtonPress_cycle d1 r1 s = some s1 →
      (sample_buttons d2 s1).button_states L = bp_state.CONT_PRESSED ∧
      (pressed_button (sample_buttons d2 s1).button_states = ((L : Nat) : Int) →
        resolve_branch (sample_buttons d2 s1) ≠ some Branch.hit)) ∧
    ((∀ j, j ≠ L → d1 j = false ∧ d2 j = false) →
      ∀ s1 s2, TaskButtonPress_cycle d1 r1 s = some s1 →
        TaskButtonPress_cycle d2 r2 s1 = some s2 →
        resolve_branch (sample_buttons d2 s1) ≠ some Branch.hit ∧
          s2.score = s1.score ∧ s2.score ≤ s.score + 1) := by
  have hheld : ∀ s1, TaskButtonPress_cycle d1 r1 s = some s1 →
      (sample_buttons d2 s1).button_states L = bp_state.CONT_PRESSED := by
    intro s1 hs1
    have hbs := TaskButtonPress_resolve_button_states r1 _ s1 hs1
    rw [sample_buttons_button_states, hbs, sample_buttons_button_states]
    exact update_buttons_twice_held d1 d2 _ L h1 h2
  have hnohit : ∀ s1, TaskButtonPress_cycle d1 r1 s = some s1 →
      pressed_button (sample_buttons d2 s1).button_states = ((L : Nat) : Int) →
      resolve_branch (sample_buttons d2 s1) ≠ some Branch.hit := by
    intro s1 hs1 hpb hhit
    obtain ⟨b, L1, _, hpb1, hinit, _⟩ := resolve_branch_hit_imp hhit
    have hLL : L1 = L := by
      apply Fin.ext
      have := hpb1.symm.trans hpb
      omega
    rw [hLL, hheld s1 hs1] at hinit
    cases hinit
  refine ⟨fun s1 hs1 => ⟨hheld s1 hs1, hnohit s1 hs1⟩, ?_⟩
  intro halone s1 s2 hs1 hs2
  have hpb : pressed_button (sample_buttons d2 s1).button_states = ((L : Nat) : Int) := by
    apply pressed_button_of_highest _ L (Or.inr (hheld s1 hs1))
    intro j hj
    rw [sample_buttons_button_states]
    exact update_buttons_released d2 _ j (halone j (ne_of_gt hj)).2
  have hno := hnohit s1 hs1 hpb
  have hsc1 : s1.score = s.score ∨ s1.score = s.score + 1 :=
    step_score s s1 (Step.press d1 r1) hs1
  have hsc2 : s2.score = s1.score := by
    rcases TaskButtonPress_resolve_score r2 _ s2 hs2 with ⟨hh, _⟩ | ⟨_, h⟩
    · exact absurd hh hno
    · rw [h, sample_buttons_score]
  refine ⟨hno, hsc2, ?_⟩
  omega

/-- Witness of C4: from the initial state with tile 0 in lane 2, button 2 held through two
iterations scores once: the score is 1 after the first and still 1 after the second. -/
theorem hold_scores_at_most_once_witness :
    ((TaskButtonPress_cycle hold_lane_two 0 (initial_state (fun _ => 2))).map
        (fun s => s.score) = some 1 ∧
      ((TaskButtonPress_cycle hold_lane_two 0 (initial_state (fun _ => 2))).bind
        (TaskButtonPress_cycle hold_lane_two 0)).map (fun s => s.score) = some 1) ∧
    ((∀ s1, TaskButtonPress_cycle hold_lane_two 0 (initial_state (fun _ => 2)) = some s1 →
      (sample_buttons hold_lane_two s1).button_states 2 = bp_state.CONT_PRESSED ∧
      (pressed_button (sample_buttons hold_lane_two s1).button_states =
          (((2 : Fin 4) : Nat) : Int) →
        resolve_branch (sample_buttons hold_lane_two s1) ≠ some Branch.hit)) ∧
    ((∀ j, j ≠ (2 : Fin 4) → hold_lane_two j = false ∧ hold_lane_two j = false) →
      ∀ s1 s2, TaskButtonPress_cycle hold_lane_two 0 (initial_state (fun _ => 2)) = some s1 →
        TaskButtonPress_cycle hold_lane_two 0 s1 = some s2 →
        resolve_branch (sample_buttons hold_lane_two s1) ≠ some Branch.hit ∧
          s2.score = s1.score ∧ s2.score ≤ (initial_state (fun _ => 2)).score + 1)) :=
  ⟨by decide,
    hold_scores_at_most_once (initial_state (fun _ => 2)) 2 hold_lane_two hold_lane_two 0 0
      (by decide) (by decide)⟩

/-- C5, as stated, fails: in the spec scenario (tile 0 in lane 2, the others in lane 0) a hit
on tile 0 and then a press edge on lane 3 call `end_game` with score 1; after that, a release
and a press edge on lane 0 take the hit branch again and the score becomes 2. -/
theorem score_not_frozen_counterexample :
    (run scenario_steps (initial_state scenario_lanes)).map
        (fun s => (decide (game_over s), s.score)) = some (true, 1) ∧
      (run (scenario_steps ++ after_game_over_steps) (initial_state scenario_lanes)).map
        (fun s => (decide (game_over s), s.score)) = some (true, 2) := by
  decide

/-- C5, amended: no step decreases the score, whether or not `end_game` has been called.
Over any sequence of iterations of `TaskTileFall` and `TaskButtonPress` the score does not
decrease; an iteration of `TaskTileFall` leaves it unchanged, `end_game` leaves it unchanged,
and an iteration of `TaskButtonPress` adds exactly one in the hit branch and nothing in the
other branches. -/
theorem score_never_decreases (steps : List Step) (s s1 : State)
    (h : run steps s = some s1) :
    s.score ≤ s1.score ∧
      (∀ rnd, (TaskTileFall_tick rnd s).score = s.score) ∧
      (end_game s).score = s.score ∧
      (∀ d r s2, TaskButtonPress_cycle d r s = some s2 →
        (resolve_branch (sample_buttons d s) = some Branch.hit ∧ s2.score = s.score + 1) ∨
        (resolve_branch (sample_buttons d s) ≠ some Branch.hit ∧ s2.score = s.score)) := by
  refine ⟨run_score steps s s1 h, fun rnd => TaskTileFall_tick_score rnd s, rfl, ?_⟩
  intro d r s2 h2
  have := TaskButtonPress_resolve_score r _ s2 h2
  rwa [sample_buttons_score] at this

/-- Witness of C5 amended: the five steps of the scenario, from score 0 to score 2. -/
theorem score_never_decreases_witness :
    scenario_final.score = 2 ∧
    ((initial_state scenario_lanes).score ≤ scenario_final.score ∧
      (∀ rnd, (TaskTileFall_tick rnd (initial_state scenario_lanes)).score =
        (initial_state scenario_lanes).score) ∧
      (end_game (initial_state scenario_lanes)).score = (initial_state scenario_lanes).score ∧
      (∀ d r s2, TaskButtonPress_cycle d r (initial_state scenario_lanes) = some s2 →
        (resolve_branch (sample_buttons d (initial_state scenario_lanes)) = some Branch.hit ∧
          s2.score = (initial_state scenario_lanes).score + 1) ∨
        (resolve_branch (sample_buttons d (initial_state scenario_lanes)) ≠ some Branch.hit ∧
          s2.score = (initial_state scenario_lanes).score))) :=
  ⟨by decide,
    score_never_decreases (scenario_steps ++ after_game_over_steps)
      (initial_state scenario_lanes) scenario_final
      (eq_some_getD_of_isSome _ _ (by decide))⟩

/-- C6: `update_button` is the three-state classifier.  A reading of not pressed gives
`NOT_PRESSED`; a reading of pressed gives `INIT_PRESSED` when the previous state was
`NOT_PRESSED` and `CONT_PRESSED` when it was `INIT_PRESSED` or `CONT_PRESSED`; the states of
the other buttons are unchanged. -/
theorem update_button_classifier (digitalRead : Fin 4 → Bool) (index : Fin 4)
    (button_states : Fin 4 → bp_state) :
    (digitalRead index = false →
      update_button digitalRead index button_states index = bp_state.NOT_PRESSED) ∧
    (digitalRead index = true → button_states index = bp_state.NOT_PRESSED →
      update_button digitalRead index button_states index = bp_state.INIT_PRESSED) ∧
    (digitalRead index = true →
      (button_states index = bp_state.INIT_PRESSED ∨
        button_states index = bp_state.CONT_PRESSED) →
      update_button digitalRead index button_states index = bp_state.CONT_PRESSED) ∧
    (∀ j, j ≠ index → update_button digitalRead index button_states j = button_states j) := by
  refine ⟨?_, ?_, ?_, ?_⟩
  · intro h
    simp [update_button, h]
  · intro h hprev
    simp [update_button, h, hprev]
  · intro h hprev
    simp only [update_button, h, if_true, if_pos hprev]
    simp
  · intro j hj
    unfold update_button
    split_ifs <;> simp [Function.update, hj]

/-- Witness of C6: the three cases on button 1, the other buttons untouched. -/
theorem update_button_classifier_witness :
    update_button ![false, false, false, false] 1
        ![bp_state.CONT_PRESSED, bp_state.CONT_PRESSED, bp_state.INIT_PRESSED,
          bp_state.NOT_PRESSED] 1 = bp_state.NOT_PRESSED ∧
      update_button ![false, true, false, false] 1
        ![bp_state.CONT_PRESSED, bp_state.NOT_PRESSED, bp_state.INIT_PRESSED,
          bp_state.NOT_PRESSED] 1 = bp_state.INIT_PRESSED ∧
      update_button ![false, true, false, false] 1
        ![bp_state.CONT_PRESSED, bp_state.INIT_PRESSED, bp_state.INIT_PRESSED,
          bp_state.NOT_PRESSED] 1 = bp_state.CONT_PRESSED ∧
      update_button ![false, true, false, false] 1
        ![bp_state.CONT_PRESSED, bp_state.INIT_PRESSED, bp_state.INIT_PRESSED,
          bp_state.NOT_PRESSED] 0 = bp_state.CONT_PRESSED :=
  ⟨(update_button_classifier _ 1 _).1 (by decide),
    (update_button_classifier _ 1 _).2.1 (by decide) (by decide),
    (update_button_classifier _ 1 _).2.2.1 (by decide) (by decide),
    (update_button_classifier ![false, true, false, false] 1
      ![bp_state.CONT_PRESSED, bp_state.INIT_PRESSED, bp_state.INIT_PRESSED,
        bp_state.NOT_PRESSED]).2.2.2 0 (by decide)⟩

/-- C9, as stated, fails: after the game over of the spec scenario (`end_game` called,
`fall_period = 200`, tile 1 on row 9), one more iteration of `TaskTileFall` runs as before:
`fall_period` becomes 199 and tile 1 moves to row 8. -/
theorem fall_after_game_over_counterexample :
    (run scenario_steps (initial_state scenario_lanes)).map
        (fun s => (decide (game_over s), s.fall_period, (s.tile_list 1).row)) =
          some (true, 200, 9) ∧
      (run (scenario_steps ++ [Step.fall (fun _ => 0)]) (initial_state scenario_lanes)).map
        (fun s => (decide (game_over s), s.fall_period, (s.tile_list 1).row)) =
          some (true, 199, 8) := by
  set_option maxRecDepth 100000 in decide

/-- C9, amended: the iteration of `TaskButtonPress` that takes the game-over branch calls
`end_game`, which suspends the tile display and the speaker and changes no tile, not
`bottom_tile` and not `fall_period`.  `TaskTileFall` is not suspended: every later iteration
of it still lowers `fall_period` by one and moves the active tile down by one row. -/
theorem game_over_cycle_frame (s : State) (d : Fin 4 → Bool) (r : Int)
    (h : resolve_branch (sample_buttons d s) = some Branch.game_over) :
    ∃ s1, TaskButtonPress_cycle d r s = some s1 ∧ game_over s1 ∧
      s1.tile_list = s.tile_list ∧ s1.bottom_tile = s.bottom_tile ∧
      s1.fall_period = s.fall_period ∧
      ∀ rnd, game_over (TaskTileFall_tick rnd s1) ∧
        (TaskTileFall_tick rnd s1).fall_period = s1.fall_period - 1 ∧
        ∀ b : Fin 50, s1.bottom_tile = ((b : Nat) : Int) →
          ((TaskTileFall_tick rnd s1).tile_list b).row = (s1.tile_list b).row - 1 := by
  refine ⟨end_game (sample_buttons d s), TaskButtonPress_resolve_game_over r _ h,
    end_game_game_over _, rfl, rfl, rfl, ?_⟩
  intro rnd
  refine ⟨?_, TaskTileFall_tick_fall_period rnd _, ?_⟩
  · have hs := TaskTileFall_tick_suspended rnd (end_game (sample_buttons d s))
    exact ⟨hs.1.trans rfl, hs.2.trans rfl⟩
  · intro b hb
    have hbt : (if (end_game (sample_buttons d s)).bottom_tile ≥ 50 then 0
        else (end_game (sample_buttons d s)).bottom_tile) = ((b : Nat) : Int) := by
      rw [hb]
      have : ¬ (((b : Nat) : Int) ≥ 50) := by omega
      rw [if_neg this]
    rw [TaskTileFall_tick_tile_list, hbt, fall_loop_bottom]

/-- Witness of C9 amended: active tile in lane 2, press edge on lane 0. -/
theorem game_over_cycle_frame_witness :
    ∃ s1, TaskButtonPress_cycle ![true, false, false, false] 0 (initial_state (fun _ => 2)) =
        some s1 ∧ game_over s1 ∧
      s1.tile_list = (initial_state (fun _ => 2)).tile_list ∧
      s1.bottom_tile = (initial_state (fun _ => 2)).bottom_tile ∧
      s1.fall_period = (initial_state (fun _ => 2)).fall_period ∧
      ∀ rnd, game_over (TaskTileFall_tick rnd s1) ∧
        (TaskTileFall_tick rnd s1).fall_period = s1.fall_period - 1 ∧
        ∀ b : Fin 50, s1.bottom_tile = ((b : Nat) : Int) →
          ((TaskTileFall_tick rnd s1).tile_list b).row = (s1.tile_list b).row - 1 :=
  game_over_cycle_frame (initial_state (fun _ => 2)) ![true, false, false, false] 0 (by decide)

/-- C10: an iteration of `TaskButtonPress` takes the game-over branch only if the row of the
active tile is below 0 with no lane pressed, or the row is below 0 with the pressed lane
different from the lane of the tile, or a lane in the press-edge state differs from the lane
of the tile.  In particular, when `pressed_button` is a lane and equals the lane of the
active tile, `end_game` is not called: the branch is the hit branch or no branch at all. -/
theorem game_over_only_by_mistake (s : State) (t : tile)
    (ht : tile_at s.tile_list s.bottom_tile = some t) :
    (resolve_branch s = some Branch.game_over →
      (t.row < 0 ∧ pressed_button s.button_states = -1) ∨
      (t.row < 0 ∧ pressed_button s.button_states ≠ -1 ∧
        pressed_button s.button_states ≠ t.lane) ∨
      (∃ L : Fin 4, s.button_states L = bp_state.INIT_PRESSED ∧ ((L : Nat) : Int) ≠ t.lane)) ∧
    (∀ L : Fin 4, pressed_button s.button_states = ((L : Nat) : Int) →
      ((L : Nat) : Int) = t.lane →
      resolve_branch s ≠ some Branch.game_over ∧
        (resolve_branch s = some Branch.hit ∨ resolve_branch s = some Branch.idle)) := by
  constructor
  · intro hgo
    rcases pressed_button_cases s.button_states with ⟨hpb, _⟩ | ⟨i, hpb, _, _⟩
    · rw [resolve_branch_no_press s t ht hpb] at hgo
      by_cases hrow : t.row < 0
      · exact Or.inl ⟨hrow, hpb⟩
      · rw [if_neg hrow] at hgo
        by_cases hl : t.lane = -1
        · rw [if_pos hl] at hgo
          cases hgo
        · rw [if_neg hl] at hgo
          cases hgo
    · rw [resolve_branch_press s t i ht hpb] at hgo
      by_cases hc1 : ((i : Nat) : Int) ≠ t.lane ∧
          (t.row < 0 ∨ s.button_states i = bp_state.INIT_PRESSED)
      · rcases hc1 with ⟨hne, hrow | hinit⟩
        · refine Or.inr (Or.inl ⟨hrow, ?_, ?_⟩)
          · rw [hpb]
            omega
          · rw [hpb]
            exact hne
        · exact Or.inr (Or.inr ⟨i, hinit, hne⟩)
      · rw [if_neg hc1] at hgo
        by_cases hc2 : ((i : Nat) : Int) = t.lane ∧ s.button_states i = bp_state.INIT_PRESSED
        · rw [if_pos hc2] at hgo
          cases hgo
        · rw [if_neg hc2] at hgo
          cases hgo
  · intro L hpb hlane
    have hc1 : ¬ (((L : Nat) : Int) ≠ t.lane ∧
        (t.row < 0 ∨ s.button_states L = bp_state.INIT_PRESSED)) := fun h => h.1 hlane
    rw [resolve_branch_press s t L ht hpb, if_neg hc1]
    by_cases hc2 : ((L : Nat) : Int) = t.lane ∧ s.button_states L = bp_state.INIT_PRESSED
    · rw [if_pos hc2]
      exact ⟨by simp, Or.inl rfl⟩
    · rw [if_neg hc2]
      exact ⟨by simp, Or.inr rfl⟩

/-- Witness of C10: with the active tile in lane 2 on row 7, a press edge on lane 0 alone is
a game over (third case), and lane 2 held (`CONT_PRESSED`) is not. -/
theorem game_over_only_by_mistake_witness :
    (resolve_branch wrong_edge_state = some Branch.game_over ∧
      resolve_branch held_state = some Branch.idle) ∧
    ((7 : Int) < 0 ∧ pressed_button wrong_edge_state.button_states = -1 ∨
      (7 : Int) < 0 ∧ pressed_button wrong_edge_state.button_states ≠ -1 ∧
        pressed_button wrong_edge_state.button_states ≠ 2 ∨
      ∃ L : Fin 4, wrong_edge_state.button_states L = bp_state.INIT_PRESSED ∧
        ((L : Nat) : Int) ≠ 2) ∧
    (resolve_branch held_state ≠ some Branch.game_over ∧
      (resolve_branch held_state = some Branch.hit ∨
        resolve_branch held_state = some Branch.idle)) :=
  ⟨by decide,
    (game_over_only_by_mistake wrong_edge_state { lane := 2, row := 7, is_pressed := false }
      (by decide)).1 (by decide),
    (game_over_only_by_mistake held_state { lane := 2, row := 7, is_pressed := false }
      (by decide)).2 2 (by decide) (by decide)⟩

/-- C7 (failing input): the Active Index leaves the array.  On a board with every tile in
lane 0, 49 rounds of play (press button 0, release, one iteration of `TaskTileFall`) and a
fiftieth press of button 0 hit all 50 tiles without any call of `end_game`; the state
reached has score 50 and `bottom_tile = 50`, and every iteration of `TaskButtonPress` from
it reads `tile_list[50]`, outside the array (no result in the model).  Only the next
iteration of `TaskTileFall` puts `bottom_tile` back to 0. -/
theorem active_index_leaves_array :
    ∃ s, run full_song_steps (initial_state (fun _ => 0)) = some s ∧ Reachable s ∧
      ¬ game_over s ∧ s.score = 50 ∧ s.bottom_tile = 50 ∧
      (∀ d r, TaskButtonPress_cycle d r s = none) ∧
      ∀ rnd, (TaskTileFall_tick rnd s).bottom_tile = 0 := by
  obtain ⟨s, hrun, hinv, hsc⟩ := song_rounds_inv 49 (le_refl _)
  obtain ⟨s1, hs1, hbt1, _, _, hd1, hsp1, hsc1⟩ := song_press 49 (by decide) s hinv
  have hfull : run full_song_steps (initial_state (fun _ => 0)) = some s1 := by
    simp only [full_song_steps]
    rw [run_append, hrun]
    simp only [Option.bind, run, step, hs1]
  have hb50 : s1.bottom_tile = 50 := by
    rw [hbt1]
    rfl
  refine ⟨s1, hfull, run_reachable _ _ _ (Reachable.init _) hfull, ?_, ?_, hb50, ?_, ?_⟩
  · intro hgo
    have := hgo.1
    rw [hd1] at this
    cases this
  · rw [hsc1, hsc]
    rfl
  · intro d r
    apply TaskButtonPress_resolve_out_of_range
    rw [sample_buttons_bottom_tile, hb50]
    decide
  · intro rnd
    rw [TaskTileFall_tick_bottom_tile, hb50]
    rfl

/-- C8, as stated, fails, in two ways.  First, from the initial board with every tile in
lane 0, ten iterations of `TaskTileFall` and then a press of button 0 (a hit on tile 0, which
is on row `-3`) reach a state in which `end_game` has never been called, `bottom_tile = 1`,
tile 1 is on row 105 and tile 2 is on row 1: the tile at `bottom_tile` is not the lowest one.
Second, 49 hits in a row with no iteration of `TaskTileFall` in between, each made on a row
at least 0, reach a state with `bottom_tile = 49` in which tile 49 and tile 0 are both on
row 105: the lowest row is not held by one tile only. -/
theorem active_tile_not_lowest_counterexample :
    (∃ s, run late_hit_steps (initial_state (fun _ => 0)) = some s ∧ Reachable s ∧
      ¬ game_over s ∧ s.bottom_tile = 1 ∧
      (s.tile_list 1).row = 105 ∧ (s.tile_list 2).row = 1 ∧
      ¬ (s.tile_list 1).row < (s.tile_list 2).row) ∧
    (∃ s, run (quick_rounds 49) (initial_state (fun _ => 0)) = some s ∧ ReachableOnTime s ∧
      Reachable s ∧ ¬ game_over s ∧ s.bottom_tile = 49 ∧
      (s.tile_list 49).row = 105 ∧ (s.tile_list 0).row = 105 ∧
      ¬ (s.tile_list 49).row < (s.tile_list 0).row) := by
  constructor
  · obtain ⟨s, hrun, hbt, hlanes, hbs, _, h1, h2, hd, _⟩ := fall_steps_ten
    obtain ⟨s1, hs1, htl, hbt1, hd1, _, _⟩ := press_lane_zero_hits s 0 hbt (hlanes 0) hbs
    have hfull : run late_hit_steps (initial_state (fun _ => 0)) = some s1 := by
      simp only [late_hit_steps]
      rw [run_append, hrun]
      simp only [Option.bind, run, step, hs1]
    have hr1 : (s1.tile_list 1).row = 105 := by
      rw [htl, Function.update_noteq (by decide), h1]
    have hr2 : (s1.tile_list 2).row = 1 := by
      rw [htl, Function.update_noteq (by decide), h2]
    refine ⟨s1, hfull, run_reachable _ _ _ (Reachable.init _) hfull, ?_, ?_, hr1, hr2, ?_⟩
    · intro hgo
      have h := hgo.1
      rw [hd1, hd] at h
      cases h
    · rw [hbt1]
      rfl
    · rw [hr1, hr2]
      decide
  · obtain ⟨s, hrun, hreach, hbt, _, _, hdone, hrest, hd⟩ := quick_rounds_inv 49 (le_refl _)
    have hr49 : (s.tile_list 49).row = 105 := by
      rw [hrest 49 (le_refl _)]
      rfl
    have hr0 : (s.tile_list 0).row = 105 := hdone 0 (by decide)
    refine ⟨s, hrun, hreach, reachable_of_on_time s hreach, ?_, hbt, hr49, hr0, ?_⟩
    · intro hgo
      have h := hgo.1
      rw [hd] at h
      cases h
    · rw [hr49, hr0]
      decide

/-- C8, amended: in every state reachable from `initialize_tiles` by iterations of
`TaskTileFall` and `TaskButtonPress` in which every hit is made while the active tile is on
a row at least 0, whenever `bottom_tile` is an index of the array the tile at `bottom_tile`
has a row smaller than or equal to the row of every tile of `tile_list`: a lowest tile is
the one addressed by the Active Index. -/
theorem active_tile_lowest (s : State) (h : ReachableOnTime s) (b : Fin 50)
    (hb : s.bottom_tile = ((b : Nat) : Int)) (j : Fin 50) :
    (s.tile_list b).row ≤ (s.tile_list j).row := by
  obtain ⟨_, _, _, hord⟩ := queue_inv_of_reachable s h
  by_cases hj : j = b
  · rw [hj]
  · rcases hord with hsorted | ⟨b1, hb1, hneg, hrest⟩
    · apply hsorted b j
      unfold queue_position
      rw [hb]
      have hjv : (j : Nat) ≠ (b : Nat) := fun h => hj (Fin.ext h)
      have := j.isLt
      have := b.isLt
      omega
    · have hbb : b1 = b := Fin.ext (by rw [hb] at hb1; omega)
      rw [hbb] at hneg hrest
      have := hrest j hj
      omega

/-- Witness of C8 amended: after one iteration of `TaskTileFall` and a hit on tile 0, the
active tile 1 is not above the recycled tile 0. -/
theorem active_tile_lowest_witness :
    (one_hit_state.tile_list 1).row ≤ (one_hit_state.tile_list 0).row :=
  active_tile_lowest one_hit_state one_hit_state_on_time 1 one_hit_state_bottom_tile 0

/-- C11: the tie-break of `pressed_button`.  After the loop of `TaskButtonPress`,
`pressed_button` is `-1` if and only if no lane is `INIT_PRESSED` or `CONT_PRESSED`;
otherwise it is a pressed lane and every pressed lane has an index at most that one: it is
the pressed lane of highest index. -/
theorem pressed_button_tie_break (button_states : Fin 4 → bp_state) :
    (pressed_button button_states = -1 ↔
      ∀ i, button_states i ≠ bp_state.INIT_PRESSED ∧ button_states i ≠ bp_state.CONT_PRESSED) ∧
    (pressed_button button_states ≠ -1 →
      ∃ L : Fin 4, pressed_button button_states = ((L : Nat) : Int) ∧
        (button_states L = bp_state.INIT_PRESSED ∨ button_states L = bp_state.CONT_PRESSED) ∧
        ∀ j : Fin 4, (button_states j = bp_state.INIT_PRESSED ∨
          button_states j = bp_state.CONT_PRESSED) → j ≤ L) := by
  rcases pressed_button_cases button_states with ⟨hpb, hall⟩ | ⟨L, hpb, hL, hup⟩
  · refine ⟨⟨fun _ i => ?_, fun _ => hpb⟩, fun h => absurd hpb h⟩
    rw [hall i]
    exact ⟨by decide, by decide⟩
  · have hne : pressed_button button_states ≠ -1 := by
      rw [hpb]
      omega
    refine ⟨⟨fun h => absurd h hne, fun h => ?_⟩, fun _ => ⟨L, hpb, hL, ?_⟩⟩
    · rcases hL with h1 | h1
      · exact absurd h1 (h L).1
      · exact absurd h1 (h L).2
    · intro j hj
      by_contra hlt
      have := hup j (lt_of_not_le hlt)
      rcases hj with h1 | h1 <;> rw [h1] at this <;> cases this

/-- Witness of C11: no lane pressed gives `-1`; lanes 0 (held) and 2 (press edge) pressed
give 2. -/
theorem pressed_button_tie_break_witness :
    pressed_button (fun _ => bp_state.NOT_PRESSED) = -1 ∧
      ∃ L : Fin 4,
        pressed_button ![bp_state.CONT_PRESSED, bp_state.NOT_PRESSED, bp_state.INIT_PRESSED,
          bp_state.NOT_PRESSED] = ((L : Nat) : Int) ∧
        (![bp_state.CONT_PRESSED, bp_state.NOT_PRESSED, bp_state.INIT_PRESSED,
            bp_state.NOT_PRESSED] L = bp_state.INIT_PRESSED ∨
          ![bp_state.CONT_PRESSED, bp_state.NOT_PRESSED, bp_state.INIT_PRESSED,
            bp_state.NOT_PRESSED] L = bp_state.CONT_PRESSED) ∧
        ∀ j : Fin 4, (![bp_state.CONT_PRESSED, bp_state.NOT_PRESSED, bp_state.INIT_PRESSED,
            bp_state.NOT_PRESSED] j = bp_state.INIT_PRESSED ∨
          ![bp_state.CONT_PRESSED, bp_state.NOT_PRESSED, bp_state.INIT_PRESSED,
            bp_state.NOT_PRESSED] j = bp_state.CONT_PRESSED) → j ≤ L :=
  ⟨(pressed_button_tie_break (fun _ => bp_state.NOT_PRESSED)).1.2
      (fun _ => ⟨by decide, by decide⟩),
    (pressed_button_tie_break ![bp_state.CONT_PRESSED, bp_state.NOT_PRESSED,
      bp_state.INIT_PRESSED, bp_state.NOT_PRESSED]).2 (by decide)⟩

/-- C12: `update_num` stores the four least-significant decimal digits.  For every
`num ≥ 0`, `DIGIT_ARRAY[k] = (num / 10^k) mod 10` for `k = 0, 1, 2, 3`; each entry is in
`0 .. 9`; the digits put back together give `num mod 10000`, which is `num` when
`num ≤ 9999`. -/
theorem update_num_digits (num : Int) (DIGIT_ARRAY : Fin 4 → Int) (hnum : 0 ≤ num) :
    (update_num num DIGIT_ARRAY 0 = num % 10 ∧
      update_num num DIGIT_ARRAY 1 = num / 10 % 10 ∧
      update_num num DIGIT_ARRAY 2 = num / 100 % 10 ∧
      update_num num DIGIT_ARRAY 3 = num / 1000 % 10) ∧
    (∀ k, 0 ≤ update_num num DIGIT_ARRAY k ∧ update_num num DIGIT_ARRAY k ≤ 9) ∧
    update_num num DIGIT_ARRAY 0 + 10 * update_num num DIGIT_ARRAY 1 +
      100 * update_num num DIGIT_ARRAY 2 + 1000 * update_num num DIGIT_ARRAY 3 =
        num % 10000 ∧
    (num ≤ 9999 →
      update_num num DIGIT_ARRAY 0 + 10 * update_num num DIGIT_ARRAY 1 +
        100 * update_num num DIGIT_ARRAY 2 + 1000 * update_num num DIGIT_ARRAY 3 = num) := by
  obtain ⟨h0, h1, h2, h3⟩ := update_num_apply num DIGIT_ARRAY
  have m10 : Int.tmod num 10 = num % 10 := Int.tmod_eq_emod hnum (by decide)
  have m100 : Int.tmod num 100 = num % 100 := Int.tmod_eq_emod hnum (by decide)
  have m1000 : Int.tmod num 1000 = num % 1000 := Int.tmod_eq_emod hnum (by decide)
  have m10000 : Int.tmod num 10000 = num % 10000 := Int.tmod_eq_emod hnum (by decide)
  have e1 : Int.tdiv (num % 100 - num % 10) 10 = num / 10 % 10 := by
    rw [Int.tdiv_eq_ediv (by omega) (by decide)]
    omega
  have e2 : Int.tdiv (num % 1000 - 10 * (num / 10 % 10) - num % 10) 100 = num / 100 % 10 := by
    rw [Int.tdiv_eq_ediv (by omega) (by decide)]
    omega
  have e3 : Int.tdiv (num % 10000 - 100 * (num / 100 % 10) - 10 * (num / 10 % 10) - num % 10)
      1000 = num / 1000 % 10 := by
    rw [Int.tdiv_eq_ediv (by omega) (by decide)]
    omega
  rw [m10, m100, e1] at h1
  rw [m10, m100, m1000, e1, e2] at h2
  rw [m10, m100, m1000, m10000, e1, e2, e3] at h3
  rw [m10] at h0
  refine ⟨⟨h0, h1, h2, h3⟩, ?_, ?_, ?_⟩
  · intro k
    fin_cases k
    · show 0 ≤ update_num num DIGIT_ARRAY 0 ∧ update_num num DIGIT_ARRAY 0 ≤ 9
      rw [h0]
      omega
    · show 0 ≤ update_num num DIGIT_ARRAY 1 ∧ update_num num DIGIT_ARRAY 1 ≤ 9
      rw [h1]
      omega
    · show 0 ≤ update_num num DIGIT_ARRAY 2 ∧ update_num num DIGIT_ARRAY 2 ≤ 9
      rw [h2]
      omega
    · show 0 ≤ update_num num DIGIT_ARRAY 3 ∧ update_num num DIGIT_ARRAY 3 ≤ 9
      rw [h3]
      omega
  · rw [h0, h1, h2, h3]
    omega
  · intro hle
    rw [h0, h1, h2, h3]
    omega

/-- Witness of C12: the score 12345 is shown as 2345. -/
theorem update_num_digits_witness :
    (update_num 12345 (fun _ => 0) 0 = 12345 % 10 ∧
      update_num 12345 (fun _ => 0) 1 = 12345 / 10 % 10 ∧
      update_num 12345 (fun _ => 0) 2 = 12345 / 100 % 10 ∧
      update_num 12345 (fun _ => 0) 3 = 12345 / 1000 % 10) ∧
    (∀ k, 0 ≤ update_num 12345 (fun _ => 0) k ∧ update_num 12345 (fun _ => 0) k ≤ 9) ∧
    update_num 12345 (fun _ => 0) 0 + 10 * update_num 12345 (fun _ => 0) 1 +
      100 * update_num 12345 (fun _ => 0) 2 + 1000 * update_num 12345 (fun _ => 0) 3 =
        12345 % 10000 ∧
    ((12345 : Int) ≤ 9999 →
      update_num 12345 (fun _ => 0) 0 + 10 * update_num 12345 (fun _ => 0) 1 +
        100 * update_num 12345 (fun _ => 0) 2 + 1000 * update_num 12345 (fun _ => 0) 3 =
          12345) :=
  update_num_digits 12345 (fun _ => 0) (by decide)

/-- C13: `initialize_tiles` fills the 50 tiles so that tile `i` has row `2*i + 7`, a lane in
`[0, 4)` (every value drawn by `random(0,4)` being in `[0, 4)`) and `is_pressed = false`.
Hence the row of tile `i + 1` is the row of tile `i` plus 2, the rows increase strictly with
the index, and tile 0 is the only tile with the smallest row. -/
theorem initialize_tiles_spec (rnd : Nat → Int) (tl : Fin 50 → tile)
    (hrnd : random_in_range rnd) :
    (∀ i : Fin 50, (initialize_tiles rnd tl i).row = 2 * ((i : Nat) : Int) + 7 ∧
      0 ≤ (initialize_tiles rnd tl i).lane ∧ (initialize_tiles rnd tl i).lane < 4 ∧
      (initialize_tiles rnd tl i).is_pressed = false) ∧
    (∀ i j : Fin 50, (j : Nat) = (i : Nat) + 1 →
      (initialize_tiles rnd tl j).row - (initialize_tiles rnd tl i).row = 2) ∧
    (∀ i j : Fin 50, i < j → (initialize_tiles rnd tl i).row < (initialize_tiles rnd tl j).row) ∧
    (∀ j : Fin 50, j ≠ 0 → (initialize_tiles rnd tl 0).row < (initialize_tiles rnd tl j).row) := by
  have hrow : ∀ i : Fin 50, (initialize_tiles rnd tl i).row = 2 * ((i : Nat) : Int) + 7 := by
    intro i
    rw [initialize_tiles_apply]
  refine ⟨?_, ?_, ?_, ?_⟩
  · intro i
    refine ⟨hrow i, ?_, ?_, ?_⟩
    · rw [initialize_tiles_apply]
      exact (hrnd i).1
    · rw [initialize_tiles_apply]
      exact (hrnd i).2
    · rw [initialize_tiles_apply]
  · intro i j hij
    rw [hrow i, hrow j, hij]
    push_cast
    omega
  · intro i j hij
    rw [hrow i, hrow j]
    have : (i : Nat) < (j : Nat) := hij
    omega
  · intro j hj
    rw [hrow 0, hrow j]
    have : (j : Nat) ≠ 0 := fun h => hj (Fin.ext h)
    show 2 * ((0 : Nat) : Int) + 7 < 2 * ((j : Nat) : Int) + 7
    omega

/-- Witness of C13: every lane drawn is 2. -/
theorem initialize_tiles_spec_witness :
    (∀ i : Fin 50,
      (initialize_tiles (fun _ => 2) (fun _ => { lane := 0, row := 0, is_pressed := false })
        i).row = 2 * ((i : Nat) : Int) + 7 ∧
      0 ≤ (initialize_tiles (fun _ => 2)
        (fun _ => { lane := 0, row := 0, is_pressed := false }) i).lane ∧
      (initialize_tiles (fun _ => 2)
        (fun _ => { lane := 0, row := 0, is_pressed := false }) i).lane < 4 ∧
      (initialize_tiles (fun _ => 2)
        (fun _ => { lane := 0, row := 0, is_pressed := false }) i).is_pressed = false) ∧
    (initialize_tiles (fun _ => 2) (fun _ => { lane := 0, row := 0, is_pressed := false })
      49).row = 105 :=
  ⟨(initialize_tiles_spec (fun _ => 2) (fun _ => { lane := 0, row := 0, is_pressed := false })
      (const_in_range 2 (by decide))).1,
    by decide⟩

/-- C14, as stated, fails: on the initial board with every tile in lane 0, after nine
iterations of `TaskTileFall` tile 1 (not the active tile) is on row 0 in lane 0; the tenth
iteration, with `random(0,4)` returning 3, does not move it to row `-1` but sends it back to
row 105 and into lane 3. -/
theorem fall_tick_recycles_counterexample :
    ∃ s, run (fall_steps 9) (initial_state (fun _ => 0)) = some s ∧ Reachable s ∧
      s.bottom_tile = 0 ∧ (s.tile_list 1).row = 0 ∧ (s.tile_list 1).lane = 0 ∧
      ((TaskTileFall_tick (fun _ => 3) s).tile_list 1).row = 105 ∧
      ((TaskTileFall_tick (fun _ => 3) s).tile_list 1).row ≠ (s.tile_list 1).row - 1 ∧
      ((TaskTileFall_tick (fun _ => 3) s).tile_list 1).lane = 3 := by
  obtain ⟨s, hrun, hbt, hlanes, _, _, h1, _, _, _⟩ := fall_steps_rows 9 (le_refl _)
  have hwrap : (if s.bottom_tile ≥ 50 then (0 : Int) else s.bottom_tile) = 0 := by
    rw [hbt]
    rfl
  have hrow1 : (s.tile_list 1).row = 0 := by
    rw [h1]
    rfl
  have hcond : (s.tile_list 1).row - 1 < 0 ∧ ((((1 : Fin 50) : Nat) : Int)) ≠ 0 := by
    rw [hrow1]
    exact ⟨by decide, by decide⟩
  obtain ⟨m, hm⟩ := fall_loop_full 0 (fun _ => 3) s.tile_list 1
  rw [if_pos hcond] at hm
  have htile : (TaskTileFall_tick (fun _ => 3) s).tile_list 1 =
      { lane := 3, row := 105, is_pressed := false } := by
    rw [TaskTileFall_tick_tile_list, hwrap]
    exact hm
  refine ⟨s, hrun, run_reachable _ _ _ (Reachable.init _) hrun, hbt, hrow1, hlanes 1, ?_, ?_, ?_⟩
  · rw [htile]
  · rw [htile, hrow1]
    decide
  · rw [htile]

/-- C14, amended: after one iteration of `TaskTileFall`, the active tile (the index
`bottom_tile`, after its wrap) and every tile whose row minus one is at least 0 have their
row lowered by one, with lane and `is_pressed` unchanged; every other tile, whose row would
fall below 0, is sent back to row `2*49 + 7 = 105` with a lane drawn by `random(0,4)` and
`is_pressed = false`. -/
theorem fall_tick_tiles (rnd : Nat → Int) (s : State) (j : Fin 50) :
    ((((j : Nat) : Int) = (if s.bottom_tile ≥ 50 then 0 else s.bottom_tile) ∨
        0 ≤ (s.tile_list j).row - 1) →
      (TaskTileFall_tick rnd s).tile_list j =
        { s.tile_list j with row := (s.tile_list j).row - 1 }) ∧
    ((((j : Nat) : Int) ≠ (if s.bottom_tile ≥ 50 then 0 else s.bottom_tile) ∧
        (s.tile_list j).row - 1 < 0) →
      ∃ m, (TaskTileFall_tick rnd s).tile_list j =
        { lane := rnd m, row := 2 * 49 + 7, is_pressed := false }) := by
  obtain ⟨m, hm⟩ := fall_loop_full (if s.bottom_tile ≥ 50 then 0 else s.bottom_tile) rnd
    s.tile_list j
  rw [TaskTileFall_tick_tile_list]
  constructor
  · intro h
    have hc : ¬ ((s.tile_list j).row - 1 < 0 ∧
        ((j : Nat) : Int) ≠ (if s.bottom_tile ≥ 50 then 0 else s.bottom_tile)) := by
      rintro ⟨h1, h2⟩
      rcases h with h | h
      · exact h2 h
      · omega
    rw [hm, if_neg hc]
  · intro h
    rw [hm, if_pos ⟨h.2, h.1⟩]
    exact ⟨m, rfl⟩

/-- Witness of C14 amended: on the initial board the active tile 0 moves from row 7 to
row 6; in a state whose tile 3 (not the active one) is on row 0, that tile is recycled. -/
theorem fall_tick_tiles_witness :
    (TaskTileFall_tick (fun _ => 3) (initial_state (fun _ => 1))).tile_list 0 =
      { (initial_state (fun _ => 1)).tile_list 0 with
        row := ((initial_state (fun _ => 1)).tile_list 0).row - 1 } ∧
    ∃ m : Nat, (TaskTileFall_tick (fun _ => 3) recycle_state).tile_list 0 =
      { lane := (fun _ : Nat => (3 : Int)) m, row := 2 * 49 + 7, is_pressed := false } :=
  ⟨(fall_tick_tiles (fun _ => 3) (initial_state (fun _ => 1)) 0).1 (Or.inl (by decide)),
    (fall_tick_tiles (fun _ => 3) recycle_state 0).2 ⟨by decide, by decide⟩⟩

/-- C15: the tempo ramp has no floor.  Every iteration of `TaskTileFall` lowers
`fall_period` by exactly one and nothing else writes it, so after a run from the initial
state with `n` iterations of `TaskTileFall` (and any number of iterations of
`TaskButtonPress`), `fall_period = 200 - n`; each further iteration makes it strictly
smaller; from 200 iterations on it is at most 0 and the argument of the next `vTaskDelay`,
`fall_period / portTICK_PERIOD_MS`, is zero or negative for every positive
`portTICK_PERIOD_MS`. -/
theorem tempo_ramp (steps : List Step) (rnd0 : Nat → Int) (s1 : State)
    (h : run steps (initial_state rnd0) = some s1) :
    s1.fall_period = 200 - (fall_count steps : Int) ∧
    (∀ rnd, (TaskTileFall_tick rnd s1).fall_period = s1.fall_period - 1 ∧
      (TaskTileFall_tick rnd s1).fall_period < s1.fall_period) ∧
    (200 ≤ fall_count steps →
      s1.fall_period ≤ 0 ∧ ∀ p : Int, 0 < p → fall_delay p s1 ≤ 0) := by
  have hfp : s1.fall_period = 200 - (fall_count steps : Int) :=
    run_fall_period steps _ s1 h
  refine ⟨hfp, ?_, ?_⟩
  · intro rnd
    rw [TaskTileFall_tick_fall_period]
    exact ⟨rfl, by omega⟩
  · intro hn
    have hle : s1.fall_period ≤ 0 := by
      rw [hfp]
      omega
    refine ⟨hle, ?_⟩
    intro p hp
    unfold fall_delay
    have h1 : 0 ≤ Int.tdiv (-s1.fall_period) p :=
      Int.tdiv_nonneg (by omega) (le_of_lt hp)
    rw [Int.neg_tdiv] at h1
    omega

/-- Witness of C15: 200 iterations of `TaskTileFall` bring `fall_period` from 200 to 0, and
the delay is then 0 for a tick period of 16 ms. -/
theorem tempo_ramp_witness :
    (tempo_final.fall_period = 200 - (fall_count (fall_steps 200) : Int) ∧
    (∀ rnd, (TaskTileFall_tick rnd tempo_final).fall_period = tempo_final.fall_period - 1 ∧
      (TaskTileFall_tick rnd tempo_final).fall_period < tempo_final.fall_period) ∧
    (200 ≤ fall_count (fall_steps 200) →
      tempo_final.fall_period ≤ 0 ∧ ∀ p : Int, 0 < p → fall_delay p tempo_final ≤ 0)) ∧
    fall_count (fall_steps 200) = 200 :=
  ⟨tempo_ramp (fall_steps 200) (fun _ => 0) tempo_final
      (eq_some_getD_of_isSome _ _ (run_fall_steps_isSome 200 _)),
    fall_count_fall_steps 200⟩

/-- C16: the lanes stay in range.  When every value drawn by `random(0,4)` is in `[0, 4)`,
every tile of `tile_list` has its lane in `[0, 4)` after `initialize_tiles`, an iteration of
`TaskTileFall` and an iteration of `TaskButtonPress` both keep that property, and so it holds
in every state reached from the initial state. -/
theorem lanes_stay_in_range (rnd0 : Nat → Int) (h0 : random_in_range rnd0)
    (steps : List Step) (hsteps : ∀ st ∈ steps, step_random_in_range st) (s1 : State)
    (hrun : run steps (initial_state rnd0) = some s1) :
    lanes_in_range (initial_state rnd0) ∧
    (∀ (s : State) (rnd : Nat → Int), random_in_range rnd → lanes_in_range s →
      lanes_in_range (TaskTileFall_tick rnd s)) ∧
    (∀ (s s2 : State) (d : Fin 4 → Bool) (r : Int), 0 ≤ r ∧ r < 4 → lanes_in_range s →
      TaskButtonPress_cycle d r s = some s2 → lanes_in_range s2) ∧
    lanes_in_range s1 :=
  ⟨lanes_in_range_initial rnd0 h0,
    fun s rnd hrnd hs => lanes_in_range_fall rnd s hrnd hs,
    fun s s2 d r hr hs hs2 => lanes_in_range_press d r s s2 hr hs hs2,
    lanes_in_range_run steps _ s1 hsteps (lanes_in_range_initial rnd0 h0) hrun⟩

/-- Witness of C16: the five steps of the spec scenario. -/
theorem lanes_stay_in_range_witness :
    lanes_in_range (initial_state scenario_lanes) ∧
    (∀ (s : State) (rnd : Nat → Int), random_in_range rnd → lanes_in_range s →
      lanes_in_range (TaskTileFall_tick rnd s)) ∧
    (∀ (s s2 : State) (d : Fin 4 → Bool) (r : Int), 0 ≤ r ∧ r < 4 → lanes_in_range s →
      TaskButtonPress_cycle d r s = some s2 → lanes_in_range s2) ∧
    lanes_in_range scenario_final :=
  lanes_stay_in_range scenario_lanes scenario_lanes_in_range
    (scenario_steps ++ after_game_over_steps) scenario_steps_in_range scenario_final
    (eq_some_getD_of_isSome _ _ (by decide))

/-- C17: otherwise no state change.  When the active tile exists, is in one of the four
lanes, and neither a game-over condition (row below 0 with no lane pressed; row below 0 with
`pressed_button` different from the lane of the tile; `pressed_button` in the press-edge
state and different from the lane of the tile) nor the hit condition (`pressed_button` equal
to the lane of the tile and in the press-edge state) holds, the part of the iteration of
`TaskButtonPress` after `update_buttons` returns the state it started from: `tile_list`,
`bottom_tile`, `score`, `note_index` and `fall_period` are unchanged. -/
theorem idle_cycle_no_change (s : State) (t : tile) (r : Int)
    (ht : tile_at s.tile_list s.bottom_tile = some t)
    (hlane : 0 ≤ t.lane ∧ t.lane < 4)
    (hno_press : ¬ (t.row < 0 ∧ pressed_button s.button_states = -1))
    (hno_wrong : ¬ (t.row < 0 ∧ pressed_button s.button_states ≠ t.lane))
    (hno_edge : ¬ ∃ L : Fin 4, pressed_button s.button_states = ((L : Nat) : Int) ∧
      ((L : Nat) : Int) ≠ t.lane ∧ s.button_states L = bp_state.INIT_PRESSED)
    (hno_hit : ¬ ∃ L : Fin 4, pressed_button s.button_states = ((L : Nat) : Int) ∧
      ((L : Nat) : Int) = t.lane ∧ s.button_states L = bp_state.INIT_PRESSED) :
    resolve_branch s = some Branch.idle ∧ TaskButtonPress_resolve r s = some s ∧
      ∀ s1, TaskButtonPress_resolve r s = some s1 →
        s1.tile_list = s.tile_list ∧ s1.bottom_tile = s.bottom_tile ∧ s1.score = s.score ∧
          s1.note_index = s.note_index ∧ s1.fall_period = s.fall_period := by
  have hbr : resolve_branch s = some Branch.idle := by
    rcases pressed_button_cases s.button_states with ⟨hpb, _⟩ | ⟨L, hpb, _, _⟩
    · have hrow : ¬ t.row < 0 := fun h => hno_press ⟨h, hpb⟩
      have hl : ¬ t.lane = -1 := by omega
      rw [resolve_branch_no_press s t ht hpb, if_neg hrow, if_neg hl]
    · have hc1 : ¬ (((L : Nat) : Int) ≠ t.lane ∧
          (t.row < 0 ∨ s.button_states L = bp_state.INIT_PRESSED)) := by
        rintro ⟨hne, hrow | hinit⟩
        · exact hno_wrong ⟨hrow, by rw [hpb]; exact hne⟩
        · exact hno_edge ⟨L, hpb, hne, hinit⟩
      have hc2 : ¬ (((L : Nat) : Int) = t.lane ∧ s.button_states L = bp_state.INIT_PRESSED) :=
        fun h => hno_hit ⟨L, hpb, h.1, h.2⟩
      rw [resolve_branch_press s t L ht hpb, if_neg hc1, if_neg hc2]
  have hres := TaskButtonPress_resolve_idle r s hbr
  refine ⟨hbr, hres, ?_⟩
  intro s1 hs1
  rw [hres] at hs1
  rw [← Option.some.inj hs1]
  exact ⟨rfl, rfl, rfl, rfl, rfl⟩

/-- Witness of C17: the two examples of the claim, with the active tile in lane 2 on row 7:
no lane pressed (the initial state), and lane 2 held (`CONT_PRESSED`). -/
theorem idle_cycle_no_change_witness :
    (resolve_branch (initial_state (fun _ => 2)) = some Branch.idle ∧
      TaskButtonPress_resolve 0 (initial_state (fun _ => 2)) =
        some (initial_state (fun _ => 2)) ∧
      ∀ s1, TaskButtonPress_resolve 0 (initial_state (fun _ => 2)) = some s1 →
        s1.tile_list = (initial_state (fun _ => 2)).tile_list ∧
          s1.bottom_tile = (initial_state (fun _ => 2)).bottom_tile ∧
          s1.score = (initial_state (fun _ => 2)).score ∧
          s1.note_index = (initial_state (fun _ => 2)).note_index ∧
          s1.fall_period = (initial_state (fun _ => 2)).fall_period) ∧
    (resolve_branch held_state = some Branch.idle ∧
      TaskButtonPress_resolve 0 held_state = some held_state ∧
      ∀ s1, TaskButtonPress_resolve 0 held_state = some s1 →
        s1.tile_list = held_state.tile_list ∧ s1.bottom_tile = held_state.bottom_tile ∧
          s1.score = held_state.score ∧ s1.note_index = held_state.note_index ∧
          s1.fall_period = held_state.fall_period) :=
  ⟨idle_cycle_no_change (initial_state (fun _ => 2)) { lane := 2, row := 7, is_pressed := false }
      0 (by decide) (by decide) (by decide) (by decide) (by decide) (by decide),
    idle_cycle_no_change held_state { lane := 2, row := 7, is_pressed := false }
      0 (by decide) (by decide) (by decide) (by decide) (by decide) (by decide)⟩

/-- C18: the game-over routine is idempotent.  Calling `end_game` twice gives the same state
as calling it once, and neither call changes `score`, `fall_period`, `bottom_tile` or any
tile. -/
theorem end_game_idempotent (s : State) :
    end_game (end_game s) = end_game s ∧
    ((end_game s).score = s.score ∧ (end_game s).fall_period = s.fall_period ∧
      (end_game s).bottom_tile = s.bottom_tile ∧ (end_game s).tile_list = s.tile_list) ∧
    ((end_game (end_game s)).score = s.score ∧
      (end_game (end_game s)).fall_period = s.fall_period ∧
      (end_game (end_game s)).bottom_tile = s.bottom_tile ∧
      (end_game (end_game s)).tile_list = s.tile_list) :=
  ⟨rfl, ⟨rfl, rfl, rfl, rfl⟩, ⟨rfl, rfl, rfl, rfl⟩⟩

/-- C19 (failing input): the note index leaves the song.  On a board with every tile in
lane 0, 49 rounds of play (press button 0, release, one iteration of `TaskTileFall`) and a
fiftieth press of button 0 hit all 50 tiles without any call of `end_game`; the state
reached has `note_index = 50`, the array `NGGYU` has 50 notes, and the iteration of
`TaskSpeaker` reads `NGGYU[50]`, outside the array (no result in the model).  Only the next
iteration of `TaskTileFall` puts `note_index` back to 0. -/
theorem note_index_leaves_song :
    ∃ s, run full_song_steps (initial_state (fun _ => 0)) = some s ∧ Reachable s ∧
      ¬ game_over s ∧ s.note_index = 50 ∧ NGGYU.length = 50 ∧
      TaskSpeaker_step s = none ∧
      ∀ rnd, (TaskTileFall_tick rnd s).note_index = 0 := by
  obtain ⟨s, hrun, hinv, _⟩ := song_rounds_inv 49 (le_refl _)
  obtain ⟨s1, hs1, hbt1, _, _, hd1, _, _⟩ := song_press 49 (by decide) s hinv
  have hfull : run full_song_steps (initial_state (fun _ => 0)) = some s1 := by
    simp only [full_song_steps]
    rw [run_append, hrun]
    simp only [Option.bind, run, step, hs1]
  have hreach : Reachable s1 := run_reachable _ _ _ (Reachable.init _) hfull
  have hnote : s1.note_index = 50 := by
    rw [note_index_eq_bottom_tile s1 hreach, hbt1]
    rfl
  refine ⟨s1, hfull, hreach, ?_, hnote, by decide, ?_, ?_⟩
  · intro hgo
    have := hgo.1
    rw [hd1] at this
    cases this
  · unfold TaskSpeaker_step
    rw [hnote]
    rfl
  · intro rnd
    rw [TaskTileFall_tick_note_index, hnote]
    rfl

/-- C21 (failing input): the rendering loop reads outside `COL`.  On the initial board with
every tile in lane 0, eight iterations of `TaskTileFall` with no button pressed reach a state
with `bottom_tile = 0`, every lane in `[0, 4)`, `end_game` never called, and the active
tile, not pressed, on row `-1`.  One pass of `TaskTileDisplay` from that state takes the
branch `t.row < 8` for tile 0 and reads `COL[-1]` and `COL[-2]`, outside the 8 entries of
`COL`, whatever the contents of `ROW` and `COL` (no result in the model). -/
theorem display_reads_outside_COL :
    ∃ s, run (fall_steps 8) (initial_state (fun _ => 0)) = some s ∧ Reachable s ∧
      0 ≤ s.bottom_tile ∧ lanes_in_range s ∧ ¬ game_over s ∧
      tile_at s.tile_list s.bottom_tile = some (s.tile_list 0) ∧
      (s.tile_list 0).row = -1 ∧ (s.tile_list 0).is_pressed = false ∧
      ∀ ROW COL : Fin 8 → Int,
        array8_at COL (s.tile_list 0).row = none ∧
        array8_at COL ((s.tile_list 0).row - 1) = none ∧
        display_tile ROW COL (s.tile_list 0) (clear_board s) = none ∧
        TaskTileDisplay_pass ROW COL s = none := by
  obtain ⟨s, hrun, hbt, hlanes, _, h0, _, _, hd, _⟩ := fall_steps_rows 8 (by decide)
  have hreach : Reachable s := run_reachable _ _ _ (Reachable.init _) hrun
  have hrow : (s.tile_list 0).row = -1 := by
    rw [h0]
    rfl
  have hp : (s.tile_list 0).is_pressed = false := is_pressed_false_of_reachable s hreach 0
  have hb0 : s.bottom_tile = (((0 : Fin 50) : Nat) : Int) := hbt
  refine ⟨s, hrun, hreach, ?_, ?_, ?_, ?_, hrow, hp, ?_⟩
  · rw [hbt]
  · intro j
    rw [hlanes j]
    exact ⟨by decide, by decide⟩
  · intro hgo
    have h := hgo.1
    rw [hd] at h
    cases h
  · rw [hb0]
    exact tile_at_coe s.tile_list 0
  · intro ROW COL
    refine ⟨?_, ?_, ?_, ?_⟩
    · apply array8_at_out_of_range
      rw [hrow]
      decide
    · apply array8_at_out_of_range
      rw [hrow]
      decide
    · exact display_tile_negative_row ROW COL _ _ hp (by rw [hrow]; decide)
    · exact TaskTileDisplay_pass_negative_row ROW COL s 0 hb0 hp (by rw [hrow]; decide)

end PianoTiles
